import Mathlib

/-! Reinforced-concrete girder design engine (`RebarCalc.h`).

A shallow embedding of the calculation core of `RebarCalc.h`: the load analysis
(`runDesign`, `calculateMaxForces`), the search over the standard bar diameters
(`findOptimalDesign`) with its shear stage (`designShearForIteration`), its cost
model (`calculateTotalCostForIteration`), the packing function
(`calculateMaxBarsPerRow`) and the palette lookup of the two renderers.

Modelling conventions.

* A C++ `double` is an exact rational number (`ℚ`); rounding is not modelled,
  with one exception: the recomputation of `h0` for two rows is also given with
  the result of every operation rounded (`twoRowDepthRounded`), because the
  bounds on that depth (C24) are met with equality in exact arithmetic.
  `M_PI`, `sin(M_PI / 4.0)` and `std::numeric_limits<double>::max()` are the
  rational constants `M_PI`, `SIN_PI_4` and `DBL_MAX`.
* A C++ `int` is an unbounded integer (`ℤ`); `std::ceil` and `std::floor` followed
  by the conversion to `int` are `⌈·⌉` and `⌊·⌋`.  The conversion of a `double`
  beyond the range of `int` (a bar count or a row capacity above `2^31 - 1`) is
  not modelled.
* The engine object is the record `RebarCalc` of its two data members `params`
  and `design`; a member function takes the engine and returns the new engine
  (together with its C++ return value, when it has one).
* A `continue` in the diameter loop is the value `none` of the stage that
  executes it.
* Every division of the source has a non-zero divisor on inputs with
  `span ≠ 0`, except `x_comp / tempParams.h0`, whose divisor can be zero after
  the two-row recomputation; that case is modelled explicitly in
  `RebarCalc.flexuralStage`.
-/

/-! ## Constants -/

/-- The fallback definition of `M_PI` in the header. -/
def M_PI : ℚ := 3.14159265358979323846

/-- The value that the library call `sin(M_PI / 4.0)` returns, to sixteen
digits. -/
def SIN_PI_4 : ℚ := 0.7071067811865475

/-- The largest finite `double`, `std::numeric_limits<double>::max()`. -/
def DBL_MAX : ℚ := 2 ^ 1024 - 2 ^ 971

def CONCRETE_COVER : ℚ := 30.0
def CONCRETE_UNIT_WEIGHT : ℚ := 2.5e-5
def CONCRETE_FC : ℚ := 32.4
def CONCRETE_FT : ℚ := 2.65
def STEEL_FY : ℚ := 400.0
def STEEL_DENSITY : ℚ := 7.85e-6
def XI_B_LIMIT : ℚ := 0.518

/-! ## Data model -/

/-- Bridge structural parameters (`struct BridgeParams`); `params = {}` zeroes
every field. -/
structure BridgeParams where
  span : ℚ := 0
  width : ℚ := 0
  height : ℚ := 0
  h0 : ℚ := 0
  wheelSpan : ℚ := 0
  girderSpacing : ℚ := 0
deriving DecidableEq

/-- Reinforcement design results (`struct RebarDesign`) with the default member
initialisers of the source. -/
structure RebarDesign where
  rebarRows : ℤ := 0
  rebarCountRow1 : ℤ := 0
  rebarCountRow2 : ℤ := 0
  flexureRebarDiameter : ℚ := 0
  stirrupLegs : ℤ := 0
  stirrupDiameter : ℚ := 0
  stirrupSpacing : ℚ := 0
  bentRebarsUsed : Bool := false
  bentRebarCount : ℤ := 0
  totalCost : ℚ := 0
  concreteCost : ℚ := 0
  steelCost : ℚ := 0
  laborCost : ℚ := 0
  maxMoment : ℚ := 0
  maxShear : ℚ := 0
  designPossible : Bool := true
  errorMessage : String := ""
deriving DecidableEq

/-- The data members of `class RebarCalc` that the calculation reads and writes. -/
structure RebarCalc where
  params : BridgeParams := {}
  design : RebarDesign := {}
deriving DecidableEq

/-- The six arguments of `runDesign`. -/
structure DesignRequest where
  span : ℚ
  width : ℚ
  height : ℚ
  totalVehicleLoad : ℚ
  wheelSpan : ℚ
  girderSpacing : ℚ
deriving DecidableEq

/-! ## Load analysis -/

/-- `RebarCalc::resetDesign`. -/
def RebarCalc.resetDesign (_self : RebarCalc) : RebarCalc :=
  { params := {}, design := { designPossible := true } }

/-- `RebarCalc::calculateMaxForces`. -/
def RebarCalc.calculateMaxForces (self : RebarCalc)
    (vehicleLoadForMoment vehicleLoadForShear : ℚ) : RebarCalc :=
  let L := self.params.span
  let q := self.params.width * self.params.height * CONCRETE_UNIT_WEIGHT
  let maxDeadMoment := q * L * L / 8.0
  let P_moment_axle := vehicleLoadForMoment / 2.0
  let d_wheel := self.params.wheelSpan
  let x_crit_moment := L / 2.0 - d_wheel / 4.0
  let Reaction_A_forMoment :=
    (P_moment_axle * (L - x_crit_moment) + P_moment_axle * (L - x_crit_moment - d_wheel)) / L
  let absMaxLiveMoment := Reaction_A_forMoment * x_crit_moment
  let maxDeadShear := q * L / 2.0
  let P_shear_axle := vehicleLoadForShear / 2.0
  let maxLiveShear := (P_shear_axle * L + P_shear_axle * (L - d_wheel)) / L
  { self with design := { self.design with
      maxMoment := maxDeadMoment + absMaxLiveMoment
      maxShear := maxDeadShear + maxLiveShear } }

/-- The local `loadFactor_moment` of `runDesign`. -/
def loadFactor_moment (girderSpacing : ℚ) : ℚ :=
  let girderSpacing_m := girderSpacing / 1000.0
  if girderSpacing_m > 0 then girderSpacing_m / 1.7 else 1.0

/-- The local `loadFactor_shear` of `runDesign`. -/
def loadFactor_shear (girderSpacing : ℚ) : ℚ :=
  let girderSpacing_m := girderSpacing / 1000.0
  if girderSpacing_m > 0 then girderSpacing_m / 1.4 else 1.0

/-- The first argument `effectiveLoad_moment * 1000.0` that `runDesign` passes to
`calculateMaxForces`. -/
def vehicleLoadForMoment (r : DesignRequest) : ℚ :=
  let effectiveLoad_moment := r.totalVehicleLoad * loadFactor_moment r.girderSpacing
  effectiveLoad_moment * 1000.0

/-- The second argument `effectiveLoad_shear * 1000.0` that `runDesign` passes to
`calculateMaxForces`. -/
def vehicleLoadForShear (r : DesignRequest) : ℚ :=
  let effectiveLoad_shear := r.totalVehicleLoad * loadFactor_shear r.girderSpacing
  effectiveLoad_shear * 1000.0

/-- The part of `runDesign` before the search: reset, store the geometry, run
`calculateMaxForces` on the distributed loads. -/
def RebarCalc.loadAnalysis (self : RebarCalc) (r : DesignRequest) : RebarCalc :=
  let self := self.resetDesign
  let self := { self with params := { self.params with
      span := r.span
      width := r.width
      height := r.height
      wheelSpan := r.wheelSpan * 1000.0
      girderSpacing := r.girderSpacing } }
  self.calculateMaxForces (vehicleLoadForMoment r) (vehicleLoadForShear r)

/-! ## The stages of one candidate diameter -/

/-- `RebarCalc::calculateMaxBarsPerRow`.  The result is an unbounded integer:
the conversion to `int` of a quotient beyond the range of `int` is not
modelled. -/
def calculateMaxBarsPerRow (diameter : ℚ) (tempParams : BridgeParams) : ℤ :=
  let available_width := tempParams.width - (2 * CONCRETE_COVER) - (2 * 8.0)
  let min_spacing := max 25.0 diameter
  if available_width < diameter then 0
  else 1 + ⌊(available_width - diameter) / (diameter + min_spacing)⌋

/-- The bar count of the flexural stage (`requiredArea`, `minRebarArea`,
`totalBars` in `findOptimalDesign`) for the tentative one-row depth
`tempParams.h0`; the moment is read from the engine's `design.maxMoment`, as in
the source.  The result is an unbounded integer: the conversion to `int` of a
quotient beyond the range of `int` is not modelled. -/
def RebarCalc.totalBarsFor (self : RebarCalc) (tempParams : BridgeParams)
    (currentDiameter : ℚ) : ℤ :=
  let area_per_bar := M_PI * (currentDiameter / 2.0) ^ 2
  let requiredArea := self.design.maxMoment / (STEEL_FY * 0.9 * tempParams.h0)
  let minRebarArea := 0.45 * (CONCRETE_FT / STEEL_FY) * tempParams.width * tempParams.height
  let requiredArea := if requiredArea < minRebarArea then minRebarArea else requiredArea
  let totalBars : ℤ := ⌈requiredArea / area_per_bar⌉
  if totalBars < 2 then 2 else totalBars

/-- The row arrangement of the flexural stage (the `if (totalBars <=
max_bars_per_row) ... else ...` block of `findOptimalDesign`): `none` when a row
exceeds `max_bars_per_row`; with two rows `h0` is recomputed from the centroid
of the two layers, here in exact arithmetic (`twoRowDepthRounded` is the same
computation with every result rounded). -/
def arrangeRows (tempDesign : RebarDesign) (tempParams : BridgeParams) (currentDiameter : ℚ)
    (totalBars max_bars_per_row : ℤ) : Option (RebarDesign × BridgeParams) :=
  let area_per_bar := M_PI * (currentDiameter / 2.0) ^ 2
  if totalBars ≤ max_bars_per_row then
    some ({ tempDesign with rebarRows := 1, rebarCountRow1 := totalBars }, tempParams)
  else
    let row1 : ℤ := ⌈(totalBars : ℚ) / 2.0⌉
    let tempDesign := { tempDesign with
      rebarRows := 2, rebarCountRow1 := row1, rebarCountRow2 := totalBars - row1 }
    if tempDesign.rebarCountRow1 > max_bars_per_row
        ∨ tempDesign.rebarCountRow2 > max_bars_per_row then none
    else
      let y1 := CONCRETE_COVER + 8.0 + currentDiameter / 2.0
      let y2 := y1 + currentDiameter + 25.0
      let As1 := (tempDesign.rebarCountRow1 : ℚ) * area_per_bar
      let As2 := (tempDesign.rebarCountRow2 : ℚ) * area_per_bar
      some (tempDesign, { tempParams with
        h0 := tempParams.height - ((As1 * y1 + As2 * y2) / (As1 + As2)) })

/-- The ductility check `xi >= XI_B_LIMIT` of the flexural stage.  The quotient
`x_comp / tempParams.h0` of a positive `x_comp` by a zero `h0` is `+∞` in the
source, which is `>= XI_B_LIMIT`: a zero `h0` is rejected. -/
def ductilityRejected (tempParams : BridgeParams) (currentDiameter : ℚ) (totalBars : ℤ) : Bool :=
  let area_per_bar := M_PI * (currentDiameter / 2.0) ^ 2
  let finalArea := (totalBars : ℚ) * area_per_bar
  let x_comp := (finalArea * STEEL_FY) / (1.0 * CONCRETE_FC * tempParams.width)
  let xi := x_comp / tempParams.h0
  decide (tempParams.h0 = 0 ∨ xi ≥ XI_B_LIMIT)

/-- Part 1 of the loop body of `findOptimalDesign` (flexural design for the
current diameter): `none` when the body executes `continue`, otherwise the
temporary design and parameters handed to the shear stage. -/
def RebarCalc.flexuralStage (self : RebarCalc) (currentDiameter : ℚ) :
    Option (RebarDesign × BridgeParams) :=
  let tempDesign : RebarDesign := { flexureRebarDiameter := currentDiameter }
  let tempParams : BridgeParams := { self.params with
    h0 := self.params.height - CONCRETE_COVER - 8.0 - currentDiameter / 2.0 }
  if tempParams.h0 ≤ 0 then none
  else
    let totalBars := self.totalBarsFor tempParams currentDiameter
    let max_bars_per_row := calculateMaxBarsPerRow currentDiameter tempParams
    if max_bars_per_row = 0 then none
    else
      match arrangeRows tempDesign tempParams currentDiameter totalBars max_bars_per_row with
      | none => none
      | some (tempDesign, tempParams) =>
        if ductilityRejected tempParams currentDiameter totalBars then none
        else some (tempDesign, tempParams)

/-- The closing block of `designShearForIteration`: the stirrup spacing for the
steel shear demand `Vs_required` that is left. -/
def stirrupSpacingFor (stirrupTotalArea h0 Vs_required : ℚ) : ℚ :=
  if Vs_required > 0 then
    let spacing := (stirrupTotalArea * STEEL_FY * h0) / Vs_required
    let spacing := (⌊spacing / 25.0⌋ : ℚ) * 25.0
    let spacing := if spacing > 200 then 200 else spacing
    if spacing < 100 then 100 else spacing
  else 200

/-- `RebarCalc::designShearForIteration`; the shear is read from the engine's
`design.maxShear`. -/
def RebarCalc.designShearForIteration (self : RebarCalc) (tempDesign : RebarDesign)
    (tempParams : BridgeParams) : RebarDesign :=
  let tempDesign := { tempDesign with
    bentRebarsUsed := false, bentRebarCount := 0, stirrupDiameter := 8, stirrupLegs := 2 }
  let Vd := self.design.maxShear
  let Vc := 0.20 * CONCRETE_FT * tempParams.width * tempParams.h0
  let Vs_required := Vd - Vc
  if Vs_required ≤ 0 then { tempDesign with stirrupSpacing := 200 }
  else
    let stirrupAreaPerLeg := M_PI * (tempDesign.stirrupDiameter / 2.0) ^ 2
    let stirrupTotalArea := (tempDesign.stirrupLegs : ℚ) * stirrupAreaPerLeg
    let spacing_if_stirrups_only := (stirrupTotalArea * STEEL_FY * tempParams.h0) / Vs_required
    if spacing_if_stirrups_only < 100.0 ∧ tempDesign.rebarCountRow1 ≥ 2 then
      let tempDesign := { tempDesign with bentRebarsUsed := true, bentRebarCount := 2 }
      let singleBentBarArea := M_PI * (tempDesign.flexureRebarDiameter / 2.0) ^ 2
      let Vsb := 0.75 * STEEL_FY * ((tempDesign.bentRebarCount : ℚ) * singleBentBarArea) * SIN_PI_4
      { tempDesign with
        stirrupSpacing := stirrupSpacingFor stirrupTotalArea tempParams.h0 (Vs_required - Vsb) }
    else
      { tempDesign with
        stirrupSpacing := stirrupSpacingFor stirrupTotalArea tempParams.h0 Vs_required }

/-- `RebarCalc::calculateTotalCostForIteration`. -/
def calculateTotalCostForIteration (tempDesign : RebarDesign) (tempParams : BridgeParams) :
    RebarDesign :=
  let numGirders : ℚ :=
    if tempParams.girderSpacing > 0 then
      (if 10000.0 / tempParams.girderSpacing < 2 then 2 else 10000.0 / tempParams.girderSpacing)
    else 1
  let cost_concrete_per_m3 : ℚ := 600.0
  let cost_rebar_base_per_ton : ℚ := 3500.0
  let cost_per_rebar_tied : ℚ := 300.0
  let volume_m3 := (tempParams.span * tempParams.width * tempParams.height) / 1e9
  let concreteCost := volume_m3 * cost_concrete_per_m3 * numGirders
  let total_longitudinal_bars : ℚ := ((tempDesign.rebarCountRow1 + tempDesign.rebarCountRow2 : ℤ) : ℚ)
  let extra_length_for_bends : ℚ :=
    if tempDesign.bentRebarsUsed then (tempDesign.bentRebarCount : ℚ) * (tempParams.height * 0.5)
    else 0
  let flex_rebar_volume := (M_PI * (tempDesign.flexureRebarDiameter / 2.0) ^ 2)
    * (total_longitudinal_bars * tempParams.span + extra_length_for_bends)
  let flex_rebar_weight_ton := flex_rebar_volume * STEEL_DENSITY
  let diameter_cost_factor_flex := 1.0 + (tempDesign.flexureRebarDiameter - 14.0) * 0.025
  let flexuralSteelCost := flex_rebar_weight_ton * (cost_rebar_base_per_ton * diameter_cost_factor_flex)
  let stirrup_length := 2 * (tempParams.width + tempParams.height)
  let num_stirrups : ℚ :=
    if tempDesign.stirrupSpacing > 0 then tempParams.span / tempDesign.stirrupSpacing else 0
  let stirrup_total_area := M_PI * (tempDesign.stirrupDiameter / 2.0) ^ 2
  let stirrup_volume := (tempDesign.stirrupLegs : ℚ) * stirrup_total_area * stirrup_length * num_stirrups
  let stirrup_weight_ton := stirrup_volume * STEEL_DENSITY
  let diameter_cost_factor_stirrup := 1.0 + (tempDesign.stirrupDiameter - 14.0) * 0.025
  let stirrupSteelCost := stirrup_weight_ton * (cost_rebar_base_per_ton * diameter_cost_factor_stirrup)
  let steelCost := (flexuralSteelCost + stirrupSteelCost) * numGirders
  let laborCost := (total_longitudinal_bars + num_stirrups) * cost_per_rebar_tied * numGirders
  { tempDesign with
    concreteCost := concreteCost
    steelCost := steelCost
    laborCost := laborCost
    totalCost := concreteCost + steelCost + laborCost }

/-- Parts 1 to 3 of the loop body of `findOptimalDesign` for one diameter, run
against the engine `self`: the flexural stage, then the shear stage, then the
cost. -/
def RebarCalc.evaluateCandidate (self : RebarCalc) (currentDiameter : ℚ) :
    Option (RebarDesign × BridgeParams) :=
  match self.flexuralStage currentDiameter with
  | none => none
  | some (tempDesign, tempParams) =>
    let tempDesign := self.designShearForIteration tempDesign tempParams
    some (calculateTotalCostForIteration tempDesign tempParams, tempParams)

/-! ## The search -/

/-- The candidate set of `findOptimalDesign`, in the order of the source. -/
def standardDiameters : List ℚ := [14, 16, 18, 20, 22, 25, 28]

/-- The variables that live across the iterations of the diameter loop. -/
structure SearchState where
  self : RebarCalc
  bestCost : ℚ
  solutionFound : Bool
deriving DecidableEq

/-- The state at the entry of the diameter loop. -/
def SearchState.init (self : RebarCalc) : SearchState :=
  { self := self, bestCost := DBL_MAX, solutionFound := false }

/-- One iteration of the diameter loop, part 4 (optimisation check) included:
an accepted candidate overwrites the whole of `this->design` and `params.h0`. -/
def searchStep (st : SearchState) (currentDiameter : ℚ) : SearchState :=
  match st.self.evaluateCandidate currentDiameter with
  | none => st
  | some (tempDesign, tempParams) =>
    if tempDesign.totalCost < st.bestCost then
      { self := { params := { st.self.params with h0 := tempParams.h0 }, design := tempDesign }
        bestCost := tempDesign.totalCost
        solutionFound := true }
    else st

/-- The text stored by `findOptimalDesign` when no candidate was accepted. -/
def noSolutionMessage : String :=
  "Error: No valid reinforcement combination found.\nIncrease beam dimensions."

/-- `RebarCalc::findOptimalDesign`: the return value and the engine afterwards. -/
def RebarCalc.findOptimalDesign (self : RebarCalc) : Bool × RebarCalc :=
  let st := standardDiameters.foldl searchStep (SearchState.init self)
  if !st.solutionFound then
    (false, { st.self with design := { st.self.design with
      designPossible := false, errorMessage := noSolutionMessage } })
  else (true, st.self)

/-- `RebarCalc::runDesign`: the return value and the engine afterwards. -/
def RebarCalc.runDesign (self : RebarCalc) (r : DesignRequest) : Bool × RebarCalc :=
  (self.loadAnalysis r).findOptimalDesign

/-- `RebarCalc::getDesignResults` after `runDesign` on a freshly constructed engine. -/
def storedDesign (r : DesignRequest) : RebarDesign :=
  (RebarCalc.runDesign {} r).2.design

/-- The engine state at the entry of the iteration for the `i`-th diameter
(counted from 0) of the loop that `runDesign` starts for request `r`. -/
def stateBeforeIteration (r : DesignRequest) (i : ℕ) : SearchState :=
  (standardDiameters.take i).foldl searchStep (SearchState.init (RebarCalc.loadAnalysis {} r))

/-- The candidates that the diameter loop prices when it runs over the
diameters `ds` from the loop state `st`, in the order of the loop: each one is
evaluated against the engine as it is at the entry of its iteration. -/
def evaluatedCandidates : SearchState → List ℚ → List (RebarDesign × BridgeParams)
  | _, [] => []
  | st, d :: ds =>
    (st.self.evaluateCandidate d).toList ++ evaluatedCandidates (searchStep st d) ds

/-- Invariant of the diameter loop started on the engine `s0`: until a
candidate is accepted the engine is untouched and `bestCost` is `DBL_MAX`;
afterwards the engine's design is an accepted temporary design, whose force
fields, flag and message are the defaults of `RebarDesign`. -/
def SearchInv (s0 : RebarCalc) (st : SearchState) : Prop :=
  (st.solutionFound = false ∧ st.self = s0 ∧ st.bestCost = DBL_MAX) ∨
  (st.solutionFound = true ∧ st.self.design.maxMoment = 0 ∧ st.self.design.maxShear = 0
    ∧ st.self.design.designPossible = true ∧ st.self.design.errorMessage = ""
    ∧ st.bestCost = st.self.design.totalCost)

/-! ## The quantities of the shear stage, as the specification names them -/

/-- The steel shear demand `Vs = maxShear - 0.20*ft*width*h0` of the shear
stage. -/
def shearDemand (maxShear width h0 : ℚ) : ℚ := maxShear - 0.20 * CONCRETE_FT * width * h0

/-- The spacing `(2*pi*4^2*fy*h0)/Vs` that two legs of 8 mm stirrups need for
the demand `Vs`, before flooring and clamping. -/
def unclampedSpacing (h0 Vs : ℚ) : ℚ := (2 * M_PI * 4 ^ 2 * STEEL_FY * h0) / Vs

/-- The relief `Vsb = 0.75*fy*(2*pi*(d/2)^2)*sin(45 deg)` of two bent bars of
diameter `d`. -/
def bentBarRelief (d : ℚ) : ℚ := 0.75 * STEEL_FY * (2 * M_PI * (d / 2) ^ 2) * SIN_PI_4

/-- A spacing floored to a multiple of 25 and clamped to [100, 200]. -/
def flooredClampedSpacing (s : ℚ) : ℚ := max 100 (min 200 ((⌊s / 25⌋ : ℚ) * 25))

/-- The ratio `xi = (totalBars*pi*(d/2)^2*fy / (fc*width)) / h0` of the
ductility check. -/
def ductilityRatio (totalBars : ℤ) (d width h0 : ℚ) : ℚ :=
  ((totalBars : ℚ) * M_PI * (d / 2) ^ 2 * STEEL_FY / (CONCRETE_FC * width)) / h0

/-! ## The renderer's palette -/

/-- The palette that `RebarCalc::initializeColorMap` fills in the constructor:
the keys of `rebarColorMap` with their `cv::Scalar` colours. -/
def rebarColorMap : List (ℚ × (ℕ × ℕ × ℕ)) :=
  [(14, (255, 0, 0)), (16, (0, 128, 0)), (18, (0, 255, 255)), (20, (0, 165, 255)),
   (22, (255, 0, 255)), (25, (128, 0, 128)), (28, (42, 42, 165))]

/-- The lookup `rebarColorMap.at(key)`; `none` stands for the
`std::out_of_range` that `std::map::at` throws on a missing key. -/
def rebarColorAt (key : ℚ) : Option (ℕ × ℕ × ℕ) :=
  rebarColorMap.lookup key

/-- Whether the palette lookup of `generateCrossSectionImage` and
`generateLongitudinalSectionImage` throws on the engine `self`: the lookup is
reached only past the `if (!design.designPossible)` return, with the key
`design.flexureRebarDiameter`. -/
def RebarCalc.paletteLookupThrows (self : RebarCalc) : Bool :=
  self.design.designPossible && (rebarColorAt self.design.flexureRebarDiameter).isNone

/-! ## The shear capacity of a plan -/

/-- The bar count that C4 states for diameter `d` under the moment `M`:
`max(2, ceil(max(M/(400*0.9*h0), 0.45*(2.65/400)*width*height) / (pi*(d/2)^2)))`
with `h0 = height - 30 - 8 - d/2`. -/
def claimedBarCount (M width height d : ℚ) : ℤ :=
  let h0 := height - 30 - 8 - d / 2
  max 2 ⌈max (M / (400 * 0.9 * h0)) (0.45 * (2.65 / 400) * width * height)
    / (M_PI * (d / 2) ^ 2)⌉

/-! ## The two-row depth in double arithmetic -/

/-- The position of the leading bit of `n`, found in at most `fuel` halvings:
`floor(log2 n)` when `1 <= n <= fuel`. -/
def leadingBit : ℕ → ℕ → ℕ
  | 0, _ => 0
  | fuel + 1, n => if n < 2 then 0 else leadingBit fuel (n / 2) + 1

/-- Rounding to the nearest integer, a tie to the even neighbour. -/
def roundHalfEven (m : ℚ) : ℤ :=
  if m - ⌊m⌋ < 1 / 2 then ⌊m⌋
  else if 1 / 2 < m - ⌊m⌋ then ⌊m⌋ + 1
  else if ⌊m⌋ % 2 = 0 then ⌊m⌋ else ⌊m⌋ + 1

/-- The binary exponent of a non-zero `x`, the `e` with `2^e <= |x| < 2^(e+1)`:
the difference of the leading bits of numerator and denominator, or one less. -/
def binaryExponent (x : ℚ) : ℤ :=
  if (2 : ℚ) ^ ((leadingBit x.num.natAbs x.num.natAbs : ℤ) - (leadingBit x.den x.den : ℤ)) ≤ |x|
  then (leadingBit x.num.natAbs x.num.natAbs : ℤ) - (leadingBit x.den x.den : ℤ)
  else (leadingBit x.num.natAbs x.num.natAbs : ℤ) - (leadingBit x.den x.den : ℤ) - 1

/-- The `double` nearest to `x`: IEEE 754 binary64, round to nearest, ties to
even, 53 significant bits.  The exponent is not bounded: overflow and
subnormal numbers are not modelled. -/
def roundDouble (x : ℚ) : ℚ :=
  if x = 0 then 0
  else (roundHalfEven (x / (2 : ℚ) ^ (binaryExponent x - 52)) : ℚ)
    * (2 : ℚ) ^ (binaryExponent x - 52)

/-- The unit roundoff of `double`, `2^-53`. -/
def unitRoundoff : ℚ := 1 / 2 ^ 53

/-- The standard model of `double` arithmetic: `fl` returns every exact result
with a relative error of at most `2^-53`.  IEEE 754 arithmetic in round to
nearest meets it wherever it neither overflows nor underflows; `roundDouble`
meets it (`roundDouble_error`), and so does exact arithmetic, `fl = id`. -/
def RoundsLikeDouble (fl : ℚ → ℚ) : Prop := ∀ x, |fl x - x| ≤ unitRoundoff * |x|

/-- The computed `x` is the exact non-negative `X` up to `k` roundings:
`X * (1 - 2^-53)^k <= x <= X * (1 + 2^-53)^k`. -/
def Near (k : ℕ) (x X : ℚ) : Prop :=
  X * (1 - unitRoundoff) ^ k ≤ x ∧ x ≤ X * (1 + unitRoundoff) ^ k

/-- The `area_per_bar` of `findOptimalDesign`,
`M_PI * pow(currentDiameter / 2.0, 2)`, with the constant and the result of
every operation rounded by `fl`. -/
def areaPerBarRounded (fl : ℚ → ℚ) (currentDiameter : ℚ) : ℚ :=
  fl (fl M_PI * fl (fl (currentDiameter / 2.0) ^ 2))

/-- The tentative one-row depth of `findOptimalDesign`,
`tempParams.height - CONCRETE_COVER - 8.0 - currentDiameter / 2.0`, with the
result of every operation rounded by `fl`. -/
def singleRowDepthRounded (fl : ℚ → ℚ) (height currentDiameter : ℚ) : ℚ :=
  fl (fl (fl (height - CONCRETE_COVER) - 8.0) - fl (currentDiameter / 2.0))

/-- The recomputation of `h0` for two rows in `findOptimalDesign` (`y1`, `y2`,
`As1`, `As2` and `tempParams.h0 = tempParams.height - ((As1 * y1 + As2 * y2) /
(As1 + As2))`), with the result of every operation rounded by `fl`.  With
`fl = id` it is the `h0` of `arrangeRows`. -/
def twoRowDepthRounded (fl : ℚ → ℚ) (height currentDiameter area_per_bar : ℚ)
    (rebarCountRow1 rebarCountRow2 : ℤ) : ℚ :=
  let y1 := fl (fl (CONCRETE_COVER + 8.0) + fl (currentDiameter / 2.0))
  let y2 := fl (fl (y1 + currentDiameter) + 25.0)
  let As1 := fl ((rebarCountRow1 : ℚ) * area_per_bar)
  let As2 := fl ((rebarCountRow2 : ℚ) * area_per_bar)
  fl (height - fl (fl (fl (As1 * y1) + fl (As2 * y2)) / fl (As1 + As2)))

/-! ## Concrete requests -/

/-- A 10 m girder of 300 mm by 500 mm under a vehicle load of 100, axles 1.2 m
apart, girders every 2 m. -/
def requestTenMetres : DesignRequest := ⟨10000, 300, 500, 100, 6 / 5, 2000⟩

/-- The request of `requestTenMetres` with a width of 60 mm. -/
def requestNarrow : DesignRequest := ⟨10000, 60, 500, 100, 6 / 5, 2000⟩

/-- The pure dead load check of the specification. -/
def requestDeadLoad : DesignRequest := ⟨10000, 300, 500, 0, 6 / 5, 2000⟩

/-- A unit vehicle load with girders every 1.7 m. -/
def requestUnitLoad : DesignRequest := ⟨10000, 300, 500, 1, 6 / 5, 1700⟩

/-- The request of `requestTenMetres` with a girder spacing of `1e-303` mm. -/
def requestTinySpacing : DesignRequest := ⟨10000, 300, 500, 100, 6 / 5, 1 / 10 ^ 303⟩

/-- A 15 m girder of 300 mm by 400 mm under a vehicle load of 100, axles 1.2 m
apart, girders every 2 m. -/
def requestFifteenMetres : DesignRequest := ⟨15000, 300, 400, 100, 6 / 5, 2000⟩

/-- A 1 m girder of 252 mm by 62 mm under a vehicle load of 100, axles 1 m
apart, girders every 2 m. -/
def requestShallow : DesignRequest := ⟨1000, 252, 62, 100, 1, 2000⟩

/-- The layout of diameter 16 for `requestTenMetres` under the governing
moment: ten bars in two rows of five. -/
def layoutSixteen : RebarDesign :=
  { rebarRows := 2, rebarCountRow1 := 5, rebarCountRow2 := 5, flexureRebarDiameter := 16 }

/-- The parameters that go with `layoutSixteen`: the geometry of
`requestTenMetres` with the two-row effective depth. -/
def paramsSixteen : BridgeParams :=
  { span := 10000, width := 300, height := 500, h0 := 867 / 2, wheelSpan := 1200
    girderSpacing := 2000 }

/-- The priced candidate of diameter 16 for `requestTenMetres` under the
governing forces. -/
def candidateSixteen : RebarDesign :=
  { layoutSixteen with
    stirrupLegs := 2, stirrupDiameter := 8, stirrupSpacing := 200
    concreteCost := 4500
    steelCost := 23995641767751520245019403 / 6250000000000000000
    laborCost := 90000
    totalCost := 24586266767751520245019403 / 6250000000000000000 }

/-- The layout of diameter 14 for `requestShallow` under the governing moment:
eight bars in two rows of four. -/
def layoutShallow : RebarDesign :=
  { rebarRows := 2, rebarCountRow1 := 4, rebarCountRow2 := 4, flexureRebarDiameter := 14 }

/-- The parameters that go with `layoutShallow`: the recomputed effective depth
is negative. -/
def paramsShallow : BridgeParams :=
  { span := 1000, width := 252, height := 62, h0 := -5 / 2, wheelSpan := 1000
    girderSpacing := 2000 }

/-- A 5 m girder of 450 mm by 180 mm under a vehicle load of 80, axles 1.2 m
apart, girders every 2 m. -/
def requestSlab : DesignRequest := ⟨5000, 450, 180, 80, 6 / 5, 2000⟩

/-- The layout of diameter 14 for `requestSlab` under the governing moment:
fourteen bars in two rows of seven. -/
def layoutSlab : RebarDesign :=
  { rebarRows := 2, rebarCountRow1 := 7, rebarCountRow2 := 7, flexureRebarDiameter := 14 }

/-- The parameters that go with `layoutSlab`, with the two-row effective depth
of exact arithmetic, `115.5`. -/
def paramsSlab : BridgeParams :=
  { span := 5000, width := 450, height := 180, h0 := 231 / 2, wheelSpan := 1200
    girderSpacing := 2000 }

/-! ## Frame lemmas: which fields a stage writes -/

theorem designShearForIteration_frame (self : RebarCalc) (t : RebarDesign) (p : BridgeParams) :
    (self.designShearForIteration t p).maxMoment = t.maxMoment
    ∧ (self.designShearForIteration t p).maxShear = t.maxShear
    ∧ (self.designShearForIteration t p).designPossible = t.designPossible
    ∧ (self.designShearForIteration t p).errorMessage = t.errorMessage
    ∧ (self.designShearForIteration t p).flexureRebarDiameter = t.flexureRebarDiameter
    ∧ (self.designShearForIteration t p).rebarRows = t.rebarRows
    ∧ (self.designShearForIteration t p).rebarCountRow1 = t.rebarCountRow1
    ∧ (self.designShearForIteration t p).rebarCountRow2 = t.rebarCountRow2 := by
  simp only [RebarCalc.designShearForIteration]
  split_ifs <;> simp

theorem calculateTotalCostForIteration_frame (t : RebarDesign) (p : BridgeParams) :
    (calculateTotalCostForIteration t p).maxMoment = t.maxMoment
    ∧ (calculateTotalCostForIteration t p).maxShear = t.maxShear
    ∧ (calculateTotalCostForIteration t p).designPossible = t.designPossible
    ∧ (calculateTotalCostForIteration t p).errorMessage = t.errorMessage
    ∧ (calculateTotalCostForIteration t p).flexureRebarDiameter = t.flexureRebarDiameter
    ∧ (calculateTotalCostForIteration t p).rebarRows = t.rebarRows
    ∧ (calculateTotalCostForIteration t p).rebarCountRow1 = t.rebarCountRow1
    ∧ (calculateTotalCostForIteration t p).rebarCountRow2 = t.rebarCountRow2 := by
  simp [calculateTotalCostForIteration]

theorem arrangeRows_frame {t t1 : RebarDesign} {p p1 : BridgeParams} {d : ℚ} {n m : ℤ}
    (h : arrangeRows t p d n m = some (t1, p1)) :
    t1.maxMoment = t.maxMoment ∧ t1.maxShear = t.maxShear
    ∧ t1.designPossible = t.designPossible ∧ t1.errorMessage = t.errorMessage
    ∧ t1.flexureRebarDiameter = t.flexureRebarDiameter
    ∧ p1.span = p.span ∧ p1.width = p.width ∧ p1.height = p.height
    ∧ p1.girderSpacing = p.girderSpacing := by
  simp only [arrangeRows] at h
  split_ifs at h <;>
    simp only [Option.some.injEq, Prod.mk.injEq] at h <;>
    obtain ⟨rfl, rfl⟩ := h <;> simp

theorem flexuralStage_frame {self : RebarCalc} {d : ℚ} {t : RebarDesign} {p : BridgeParams}
    (h : self.flexuralStage d = some (t, p)) :
    t.maxMoment = 0 ∧ t.maxShear = 0 ∧ t.designPossible = true ∧ t.errorMessage = ""
    ∧ t.flexureRebarDiameter = d := by
  simp only [RebarCalc.flexuralStage] at h
  split_ifs at h
  split at h
  · exact absurd h (by simp)
  · rename_i t1 p1 hl
    split_ifs at h
    simp only [Option.some.injEq, Prod.mk.injEq] at h
    obtain ⟨rfl, rfl⟩ := h
    obtain ⟨a1, a2, a3, a4, a5, -⟩ := arrangeRows_frame hl
    exact ⟨a1, a2, a3, a4, a5⟩

/-- A candidate that reaches the optimisation check carries zero forces, the
default feasibility flag and an empty message: none of the three stages writes
these fields of the temporary design. -/
theorem evaluateCandidate_frame {self : RebarCalc} {d : ℚ} {t : RebarDesign} {p : BridgeParams}
    (h : self.evaluateCandidate d = some (t, p)) :
    t.maxMoment = 0 ∧ t.maxShear = 0 ∧ t.designPossible = true ∧ t.errorMessage = ""
    ∧ t.flexureRebarDiameter = d := by
  simp only [RebarCalc.evaluateCandidate] at h
  split at h
  · exact absurd h (by simp)
  · rename_i t0 p0 hf
    simp only [Option.some.injEq, Prod.mk.injEq] at h
    obtain ⟨rfl, rfl⟩ := h
    have h1 := flexuralStage_frame hf
    have h2 := designShearForIteration_frame self t0 p0
    have h3 := calculateTotalCostForIteration_frame (self.designShearForIteration t0 p0) p0
    obtain ⟨a1, a2, a3, a4, a5⟩ := h1
    obtain ⟨b1, b2, b3, b4, b5, -⟩ := h2
    obtain ⟨c1, c2, c3, c4, c5, -⟩ := h3
    refine ⟨?_, ?_, ?_, ?_, ?_⟩
    · rw [c1, b1, a1]
    · rw [c2, b2, a2]
    · rw [c3, b3, a3]
    · rw [c4, b4, a4]
    · rw [c5, b5, a5]

/-! ## The diameter loop -/

theorem searchStep_of_none {st : SearchState} {d : ℚ}
    (h : st.self.evaluateCandidate d = none) : searchStep st d = st := by
  simp [searchStep, h]

theorem searchStep_of_not_lt {st : SearchState} {d : ℚ} {t : RebarDesign} {p : BridgeParams}
    (h : st.self.evaluateCandidate d = some (t, p)) (hc : ¬ t.totalCost < st.bestCost) :
    searchStep st d = st := by
  simp [searchStep, h, hc]

theorem searchStep_of_lt {st : SearchState} {d : ℚ} {t : RebarDesign} {p : BridgeParams}
    (h : st.self.evaluateCandidate d = some (t, p)) (hc : t.totalCost < st.bestCost) :
    searchStep st d =
      { self := { params := { st.self.params with h0 := p.h0 }, design := t }
        bestCost := t.totalCost
        solutionFound := true } := by
  simp [searchStep, h, hc]

/-- An iteration either leaves the loop state alone or accepts its candidate. -/
theorem searchStep_cases (st : SearchState) (d : ℚ) :
    searchStep st d = st ∨
    ∃ t p, st.self.evaluateCandidate d = some (t, p) ∧ t.totalCost < st.bestCost ∧
      searchStep st d =
        { self := { params := { st.self.params with h0 := p.h0 }, design := t }
          bestCost := t.totalCost
          solutionFound := true } := by
  cases h : st.self.evaluateCandidate d with
  | none => exact Or.inl (searchStep_of_none h)
  | some c =>
    obtain ⟨t, p⟩ := c
    by_cases hc : t.totalCost < st.bestCost
    · exact Or.inr ⟨t, p, rfl, hc, searchStep_of_lt h hc⟩
    · exact Or.inl (searchStep_of_not_lt h hc)

theorem SearchInv_init (s0 : RebarCalc) : SearchInv s0 (SearchState.init s0) :=
  Or.inl ⟨rfl, rfl, rfl⟩

theorem SearchInv_step {s0 : RebarCalc} {st : SearchState} (h : SearchInv s0 st) (d : ℚ) :
    SearchInv s0 (searchStep st d) := by
  rcases searchStep_cases st d with h1 | ⟨t, p, he, -, h1⟩
  · rw [h1]; exact h
  · rw [h1]
    obtain ⟨a1, a2, a3, a4, -⟩ := evaluateCandidate_frame he
    exact Or.inr ⟨rfl, a1, a2, a3, a4, rfl⟩

theorem SearchInv_foldl {s0 : RebarCalc} (ds : List ℚ) :
    ∀ {st : SearchState}, SearchInv s0 st → SearchInv s0 (ds.foldl searchStep st) := by
  induction ds with
  | nil => intro st h; exact h
  | cons d ds ih => intro st h; exact ih (SearchInv_step h d)

theorem foldl_found (ds : List ℚ) :
    ∀ {st : SearchState}, st.solutionFound = true →
      (ds.foldl searchStep st).solutionFound = true := by
  induction ds with
  | nil => intro st h; exact h
  | cons d ds ih =>
    intro st h
    apply ih
    rcases searchStep_cases st d with h1 | ⟨t, p, -, -, h1⟩
    · rw [h1]; exact h
    · rw [h1]

/-- The loop ends without a solution exactly when no diameter yields a
candidate priced below the entry value of `bestCost`; the state is then the
entry state. -/
theorem foldl_notFound_iff (ds : List ℚ) :
    ∀ (st : SearchState), st.solutionFound = false →
      ((ds.foldl searchStep st).solutionFound = false ↔
        ∀ d ∈ ds, ∀ t p, st.self.evaluateCandidate d = some (t, p) →
          ¬ t.totalCost < st.bestCost) := by
  induction ds with
  | nil => intro st h; simp [h]
  | cons d ds ih =>
    intro st h
    rw [List.foldl_cons]
    rcases searchStep_cases st d with h1 | ⟨t, p, he, hc, h1⟩
    · rw [h1, ih st h]
      constructor
      · intro hall e he t p hev
        rcases List.mem_cons.1 he with rfl | hmem
        · intro hlt
          rw [searchStep_of_lt hev hlt] at h1
          rw [← h1] at h
          exact absurd h (by simp)
        · exact hall e hmem t p hev
      · intro hall e he
        exact hall e (List.mem_cons_of_mem _ he)
    · have hf : (ds.foldl searchStep (searchStep st d)).solutionFound = true :=
        foldl_found ds (by rw [h1])
      constructor
      · intro hcontra
        rw [hf] at hcontra
        exact absurd hcontra (by simp)
      · intro hall
        exact absurd hc (hall d (List.mem_cons_self _ _) t p he)

theorem foldl_notFound_eq (ds : List ℚ) :
    ∀ (st : SearchState), st.solutionFound = false →
      (ds.foldl searchStep st).solutionFound = false → ds.foldl searchStep st = st := by
  induction ds with
  | nil => intro st _ _; rfl
  | cons d ds ih =>
    intro st h hn
    rw [List.foldl_cons] at hn ⊢
    rcases searchStep_cases st d with h1 | ⟨t, p, -, -, h1⟩
    · rw [h1] at hn ⊢
      exact ih st h hn
    · have hf : (ds.foldl searchStep (searchStep st d)).solutionFound = true :=
        foldl_found ds (by rw [h1])
      rw [hf] at hn
      exact absurd hn (by simp)

/-! ## `findOptimalDesign` and `runDesign` in terms of the loop -/

theorem findOptimalDesign_fst (s : RebarCalc) :
    s.findOptimalDesign.1
      = (standardDiameters.foldl searchStep (SearchState.init s)).solutionFound := by
  simp only [RebarCalc.findOptimalDesign]
  cases h : (standardDiameters.foldl searchStep (SearchState.init s)).solutionFound <;> simp

theorem findOptimalDesign_snd_of_found (s : RebarCalc)
    (h : (standardDiameters.foldl searchStep (SearchState.init s)).solutionFound = true) :
    s.findOptimalDesign.2 = (standardDiameters.foldl searchStep (SearchState.init s)).self := by
  simp [RebarCalc.findOptimalDesign, h]

theorem findOptimalDesign_snd_of_notFound (s : RebarCalc)
    (h : (standardDiameters.foldl searchStep (SearchState.init s)).solutionFound = false) :
    s.findOptimalDesign.2 =
      { s with design := { s.design with
          designPossible := false, errorMessage := noSolutionMessage } } := by
  have he := foldl_notFound_eq standardDiameters (SearchState.init s) rfl h
  simp only [RebarCalc.findOptimalDesign, he]
  simp [SearchState.init]

/-- The design that `loadAnalysis` leaves in the engine is the default design
with the two force fields filled in. -/
theorem loadAnalysis_design (self : RebarCalc) (r : DesignRequest) :
    (self.loadAnalysis r).design =
      { maxMoment := (self.loadAnalysis r).design.maxMoment
        maxShear := (self.loadAnalysis r).design.maxShear } := by
  simp [RebarCalc.loadAnalysis, RebarCalc.calculateMaxForces, RebarCalc.resetDesign]

theorem loadAnalysis_params (self : RebarCalc) (r : DesignRequest) :
    (self.loadAnalysis r).params =
      { span := r.span, width := r.width, height := r.height, h0 := 0
        wheelSpan := r.wheelSpan * 1000.0, girderSpacing := r.girderSpacing } := by
  simp [RebarCalc.loadAnalysis, RebarCalc.calculateMaxForces, RebarCalc.resetDesign]

/-! ## C6: the return value, the flag and the message -/

theorem runDesign_of_found (self : RebarCalc) (r : DesignRequest)
    (hf : (standardDiameters.foldl searchStep
      (SearchState.init (self.loadAnalysis r))).solutionFound = true) :
    (self.runDesign r).1 = true
    ∧ (self.runDesign r).2
        = (standardDiameters.foldl searchStep (SearchState.init (self.loadAnalysis r))).self := by
  constructor
  · simp only [RebarCalc.runDesign]; rw [findOptimalDesign_fst, hf]
  · simp only [RebarCalc.runDesign]; rw [findOptimalDesign_snd_of_found _ hf]

theorem runDesign_of_notFound (self : RebarCalc) (r : DesignRequest)
    (hf : (standardDiameters.foldl searchStep
      (SearchState.init (self.loadAnalysis r))).solutionFound = false) :
    (self.runDesign r).1 = false
    ∧ (self.runDesign r).2 = { self.loadAnalysis r with design :=
        { (self.loadAnalysis r).design with
          designPossible := false, errorMessage := noSolutionMessage } } := by
  constructor
  · simp only [RebarCalc.runDesign]; rw [findOptimalDesign_fst, hf]
  · simp only [RebarCalc.runDesign]; rw [findOptimalDesign_snd_of_notFound _ hf]

/-- After a successful search the engine's design carries zero forces, a true
flag and an empty message. -/
theorem runDesign_found_fields (self : RebarCalc) (r : DesignRequest)
    (hf : (standardDiameters.foldl searchStep
      (SearchState.init (self.loadAnalysis r))).solutionFound = true) :
    (self.runDesign r).2.design.maxMoment = 0 ∧ (self.runDesign r).2.design.maxShear = 0
    ∧ (self.runDesign r).2.design.designPossible = true
    ∧ (self.runDesign r).2.design.errorMessage = "" := by
  have hinv := SearchInv_foldl standardDiameters
    (SearchInv_init (self.loadAnalysis r))
  rw [(runDesign_of_found self r hf).2]
  rcases hinv with ⟨h1, -⟩ | ⟨-, h2, h3, h4, h5, -⟩
  · rw [hf] at h1; exact absurd h1 (by simp)
  · exact ⟨h2, h3, h4, h5⟩

theorem runDesign_flag_message (self : RebarCalc) (r : DesignRequest) :
    (self.runDesign r).1 = (self.runDesign r).2.design.designPossible
    ∧ (self.runDesign r).2.design.errorMessage
        = (if (self.runDesign r).1 then "" else noSolutionMessage) := by
  cases hf : (standardDiameters.foldl searchStep
      (SearchState.init (self.loadAnalysis r))).solutionFound with
  | true =>
    obtain ⟨-, -, h3, h4⟩ := runDesign_found_fields self r hf
    have h1 := (runDesign_of_found self r hf).1
    exact ⟨by rw [h1, h3], by rw [h1, h4]; rfl⟩
  | false =>
    obtain ⟨h1, h2⟩ := runDesign_of_notFound self r hf
    exact ⟨by rw [h1, h2], by rw [h1, h2]; rfl⟩

/-- C6. For every engine state and request, the boolean returned by `runDesign`
equals `designPossible` of the stored design, and `errorMessage` is empty when
the result is true and the fixed, non-empty text when it is false. -/
theorem C6_result_flag_message (self : RebarCalc) (r : DesignRequest) :
    (self.runDesign r).1 = (self.runDesign r).2.design.designPossible
    ∧ (self.runDesign r).2.design.errorMessage
        = (if (self.runDesign r).1 then ""
            else "Error: No valid reinforcement combination found.\nIncrease beam dimensions.")
    ∧ "Error: No valid reinforcement combination found.\nIncrease beam dimensions." ≠ "" :=
  ⟨(runDesign_flag_message self r).1, (runDesign_flag_message self r).2, by simp⟩

/-! ## C7: a width too narrow for every standard diameter -/

theorem calculateMaxBarsPerRow_narrow {d : ℚ} {p : BridgeParams}
    (hw : p.width - 2 * 30 - 2 * 8 < 14) (hd : 14 ≤ d) : calculateMaxBarsPerRow d p = 0 := by
  simp only [calculateMaxBarsPerRow]
  rw [if_pos]
  norm_num [CONCRETE_COVER]
  linarith

theorem flexuralStage_narrow {s : RebarCalc} {d : ℚ}
    (hw : s.params.width - 2 * 30 - 2 * 8 < 14) (hd : 14 ≤ d) : s.flexuralStage d = none := by
  simp only [RebarCalc.flexuralStage]
  split_ifs with h1 h2
  · rfl
  · rfl
  · exact absurd (calculateMaxBarsPerRow_narrow (by simpa using hw) hd) h2

theorem evaluateCandidate_of_flexuralStage_none {s : RebarCalc} {d : ℚ}
    (h : s.flexuralStage d = none) : s.evaluateCandidate d = none := by
  simp [RebarCalc.evaluateCandidate, h]

theorem standardDiameters_ge {d : ℚ} (h : d ∈ standardDiameters) : 14 ≤ d := by
  simp only [standardDiameters, List.mem_cons, List.mem_singleton, List.not_mem_nil,
    or_false] at h
  rcases h with rfl | rfl | rfl | rfl | rfl | rfl | rfl <;> norm_num

/-- C7. For every request whose width leaves less than 14 mm between the
stirrups (`width - 2*30 - 2*8 < 14`, for instance `width = 60`), whatever the
other five arguments are (positive or not), `runDesign` returns false and the
stored design has `designPossible = false`, a non-empty `errorMessage`, and
`totalCost = concreteCost = steelCost = laborCost = 0`. -/
theorem C7_narrow_width_infeasible (self : RebarCalc) (r : DesignRequest)
    (hw : r.width - 2 * 30 - 2 * 8 < 14) :
    (self.runDesign r).1 = false
    ∧ (self.runDesign r).2.design.designPossible = false
    ∧ (self.runDesign r).2.design.errorMessage ≠ ""
    ∧ (self.runDesign r).2.design.totalCost = 0
    ∧ (self.runDesign r).2.design.concreteCost = 0
    ∧ (self.runDesign r).2.design.steelCost = 0
    ∧ (self.runDesign r).2.design.laborCost = 0 := by
  have hwp : (self.loadAnalysis r).params.width - 2 * 30 - 2 * 8 < 14 := by
    rw [loadAnalysis_params]; exact hw
  have hf : (standardDiameters.foldl searchStep
      (SearchState.init (self.loadAnalysis r))).solutionFound = false := by
    rw [foldl_notFound_iff standardDiameters (SearchState.init (self.loadAnalysis r)) rfl]
    intro d hd t p he
    have hn := evaluateCandidate_of_flexuralStage_none
      (flexuralStage_narrow hwp (standardDiameters_ge hd))
    simp only [SearchState.init] at he
    rw [hn] at he
    exact absurd he (by simp)
  obtain ⟨h1, h2⟩ := runDesign_of_notFound self r hf
  rw [h2]
  refine ⟨h1, rfl, by simp [noSolutionMessage], ?_, ?_, ?_, ?_⟩ <;>
    simp [RebarCalc.loadAnalysis, RebarCalc.calculateMaxForces, RebarCalc.resetDesign]

/-- Witness of C7 at the request with `width = 60`. -/
theorem C7_narrow_width_infeasible_witness :
    requestNarrow.width - 2 * 30 - 2 * 8 < 14
    ∧ (RebarCalc.runDesign {} requestNarrow).1 = false
    ∧ (RebarCalc.runDesign {} requestNarrow).2.design.designPossible = false
    ∧ (RebarCalc.runDesign {} requestNarrow).2.design.errorMessage ≠ ""
    ∧ (RebarCalc.runDesign {} requestNarrow).2.design.totalCost = 0
    ∧ (RebarCalc.runDesign {} requestNarrow).2.design.concreteCost = 0
    ∧ (RebarCalc.runDesign {} requestNarrow).2.design.steelCost = 0
    ∧ (RebarCalc.runDesign {} requestNarrow).2.design.laborCost = 0 :=
  ⟨by norm_num [requestNarrow],
    C7_narrow_width_infeasible {} requestNarrow (by norm_num [requestNarrow])⟩

/-! ## C8: what an infeasible run leaves in the design -/

/-- C8, counterexample. On the request with `width = 60` the run is infeasible
(`runDesign` returns false), yet the stored `maxMoment` and `maxShear` are not
0: the claim's "all six fields are 0" fails there. -/
theorem C8_counterexample :
    ¬ ((RebarCalc.runDesign {} requestNarrow).1 = false →
        (storedDesign requestNarrow).totalCost = 0
        ∧ (storedDesign requestNarrow).concreteCost = 0
        ∧ (storedDesign requestNarrow).steelCost = 0
        ∧ (storedDesign requestNarrow).laborCost = 0
        ∧ (storedDesign requestNarrow).maxMoment = 0
        ∧ (storedDesign requestNarrow).maxShear = 0) := by
  intro h
  have h1 : (RebarCalc.runDesign {} requestNarrow).1 = false := by decide!
  have h2 : (storedDesign requestNarrow).maxMoment ≠ 0 := by decide!
  exact h2 (h h1).2.2.2.2.1

/-- C8, amended. Whenever `runDesign` returns false, the four cost fields of the
stored design are 0, and `maxMoment` and `maxShear` are the forces that
`calculateMaxForces` computed for the request (not reset to 0). -/
theorem C8_infeasible_fields (self : RebarCalc) (r : DesignRequest)
    (h : (self.runDesign r).1 = false) :
    (self.runDesign r).2.design.totalCost = 0
    ∧ (self.runDesign r).2.design.concreteCost = 0
    ∧ (self.runDesign r).2.design.steelCost = 0
    ∧ (self.runDesign r).2.design.laborCost = 0
    ∧ (self.runDesign r).2.design.maxMoment = (self.loadAnalysis r).design.maxMoment
    ∧ (self.runDesign r).2.design.maxShear = (self.loadAnalysis r).design.maxShear := by
  have hf : (standardDiameters.foldl searchStep
      (SearchState.init (self.loadAnalysis r))).solutionFound = false := by
    rw [← findOptimalDesign_fst]; exact h
  obtain ⟨-, h2⟩ := runDesign_of_notFound self r hf
  rw [h2]
  refine ⟨?_, ?_, ?_, ?_, rfl, rfl⟩ <;>
    simp [RebarCalc.loadAnalysis, RebarCalc.calculateMaxForces, RebarCalc.resetDesign]

/-- Witness of the amended C8 at the request with `width = 60`. -/
theorem C8_infeasible_fields_witness :
    (RebarCalc.runDesign {} requestNarrow).1 = false
    ∧ (RebarCalc.runDesign {} requestNarrow).2.design.totalCost = 0
    ∧ (RebarCalc.runDesign {} requestNarrow).2.design.concreteCost = 0
    ∧ (RebarCalc.runDesign {} requestNarrow).2.design.steelCost = 0
    ∧ (RebarCalc.runDesign {} requestNarrow).2.design.laborCost = 0
    ∧ (RebarCalc.runDesign {} requestNarrow).2.design.maxMoment
        = (RebarCalc.loadAnalysis {} requestNarrow).design.maxMoment
    ∧ (RebarCalc.runDesign {} requestNarrow).2.design.maxShear
        = (RebarCalc.loadAnalysis {} requestNarrow).design.maxShear :=
  ⟨by decide!, C8_infeasible_fields {} requestNarrow (by decide!)⟩

/-! ## C9: pure dead load -/

/-- C9. For `totalVehicleLoad = 0` and every wheelSpan and girderSpacing
(positive ones in particular) the load analysis yields
`maxMoment = width*height*2.5e-5*span^2/8` and
`maxShear = width*height*2.5e-5*span/2`, neither of which mentions wheelSpan or
girderSpacing; for span 10000, width 300, height 500 these are 46 875 000 and
18 750. -/
theorem C9_pure_dead_load (self : RebarCalc) (r : DesignRequest)
    (hload : r.totalVehicleLoad = 0) :
    (self.loadAnalysis r).design.maxMoment = r.width * r.height * 2.5e-5 * r.span ^ 2 / 8
    ∧ (self.loadAnalysis r).design.maxShear = r.width * r.height * 2.5e-5 * r.span / 2
    ∧ (r.span = 10000 → r.width = 300 → r.height = 500 →
        (self.loadAnalysis r).design.maxMoment = 46875000
        ∧ (self.loadAnalysis r).design.maxShear = 18750) := by
  have hM : (self.loadAnalysis r).design.maxMoment
      = r.width * r.height * 2.5e-5 * r.span ^ 2 / 8 := by
    simp only [RebarCalc.loadAnalysis, RebarCalc.calculateMaxForces, RebarCalc.resetDesign,
      vehicleLoadForMoment, vehicleLoadForShear, hload, CONCRETE_UNIT_WEIGHT]
    norm_num
    ring
  have hV : (self.loadAnalysis r).design.maxShear
      = r.width * r.height * 2.5e-5 * r.span / 2 := by
    simp only [RebarCalc.loadAnalysis, RebarCalc.calculateMaxForces, RebarCalc.resetDesign,
      vehicleLoadForMoment, vehicleLoadForShear, hload, CONCRETE_UNIT_WEIGHT]
    norm_num
  refine ⟨hM, hV, ?_⟩
  intro hs hw hh
  rw [hM, hV, hs, hw, hh]
  norm_num

/-- Witness of C9 at span 10000, width 300, height 500, wheelSpan 1.2,
girderSpacing 2000. -/
theorem C9_pure_dead_load_witness :
    requestDeadLoad.totalVehicleLoad = 0
    ∧ (RebarCalc.loadAnalysis {} requestDeadLoad).design.maxMoment = 46875000
    ∧ (RebarCalc.loadAnalysis {} requestDeadLoad).design.maxShear = 18750 :=
  ⟨rfl, (C9_pure_dead_load {} requestDeadLoad rfl).2.2 rfl rfl rfl⟩

/-! ## C10: the loads handed to `calculateMaxForces` -/

/-- C10, counterexample. For a unit vehicle load and girders every 1700 mm the
claim's loads are `1 * (1700/1000)/1.7 = 1` and `1 * (1700/1000)/1.4`; the loads
that `runDesign` hands to `calculateMaxForces` are 1000 times these. -/
theorem C10_counterexample :
    ¬ (vehicleLoadForMoment requestUnitLoad
          = requestUnitLoad.totalVehicleLoad * (requestUnitLoad.girderSpacing / 1000) / 1.7
        ∧ vehicleLoadForShear requestUnitLoad
          = requestUnitLoad.totalVehicleLoad * (requestUnitLoad.girderSpacing / 1000) / 1.4) := by
  intro h
  have h1 : vehicleLoadForMoment requestUnitLoad = 1000 := by decide!
  have h2 : requestUnitLoad.totalVehicleLoad * (requestUnitLoad.girderSpacing / 1000) / 1.7
      = (1 : ℚ) := by decide!
  rw [h1, h2] at h
  exact absurd h.1 (by norm_num)

/-- C10, amended. The loads that `runDesign` hands to `calculateMaxForces` are
1000 times the distributed vehicle load: `1000 * totalVehicleLoad *
(girderSpacing/1000)/1.7` for the moment and `1000 * totalVehicleLoad *
(girderSpacing/1000)/1.4` for the shear when girderSpacing is positive, and
`1000 * totalVehicleLoad` for both when it is not; the forces of the request are
`calculateMaxForces` on exactly these two loads. -/
theorem C10_loads_passed_to_calculateMaxForces (self : RebarCalc) (r : DesignRequest) :
    vehicleLoadForMoment r
      = (if 0 < r.girderSpacing then 1000 * r.totalVehicleLoad * (r.girderSpacing / 1000) / 1.7
          else 1000 * r.totalVehicleLoad)
    ∧ vehicleLoadForShear r
      = (if 0 < r.girderSpacing then 1000 * r.totalVehicleLoad * (r.girderSpacing / 1000) / 1.4
          else 1000 * r.totalVehicleLoad)
    ∧ self.loadAnalysis r
      = RebarCalc.calculateMaxForces
          { params := { span := r.span, width := r.width, height := r.height, h0 := 0
                        wheelSpan := r.wheelSpan * 1000.0, girderSpacing := r.girderSpacing }
            design := { designPossible := true } }
          (vehicleLoadForMoment r) (vehicleLoadForShear r) := by
  refine ⟨?_, ?_, rfl⟩
  · simp only [vehicleLoadForMoment, loadFactor_moment]
    by_cases hg : 0 < r.girderSpacing
    · have hg1 : r.girderSpacing / 1000.0 > 0 := by norm_num; exact hg
      rw [if_pos hg1, if_pos hg]; norm_num; ring
    · have hg1 : ¬ r.girderSpacing / 1000.0 > 0 := by norm_num; exact not_lt.1 hg
      rw [if_neg hg1, if_neg hg]; norm_num; ring
  · simp only [vehicleLoadForShear, loadFactor_shear]
    by_cases hg : 0 < r.girderSpacing
    · have hg1 : r.girderSpacing / 1000.0 > 0 := by norm_num; exact hg
      rw [if_pos hg1, if_pos hg]; norm_num; ring
    · have hg1 : ¬ r.girderSpacing / 1000.0 > 0 := by norm_num; exact not_lt.1 hg
      rw [if_neg hg1, if_neg hg]; norm_num; ring

/-! ## C5: when the search fails, and what it stores when it succeeds -/

theorem evaluateCandidate_eq_none_iff (s : RebarCalc) (d : ℚ) :
    s.evaluateCandidate d = none ↔ s.flexuralStage d = none := by
  simp only [RebarCalc.evaluateCandidate]
  cases h : s.flexuralStage d with
  | none => simp
  | some c => simp

/-- With a girder spacing of `1e-303` mm the diameter 14 passes the flexural
stage under the governing moment, but its price (about `3e312`, `+∞` in the
doubles of the source) is not below the initial `bestCost` (`DBL_MAX`, about
`1.8e308`): no candidate is accepted and `runDesign` returns false. -/
theorem runDesign_false_when_cost_exceeds_DBL_MAX :
    ¬ ((RebarCalc.runDesign {} requestTinySpacing).1 = false ↔
        ∀ d ∈ standardDiameters,
          (RebarCalc.loadAnalysis {} requestTinySpacing).flexuralStage d = none) := by
  intro h
  have h1 : (RebarCalc.runDesign {} requestTinySpacing).1 = false := by decide!
  have h2 : (RebarCalc.loadAnalysis {} requestTinySpacing).flexuralStage 14 ≠ none := by
    decide!
  exact h2 (h.1 h1 14 (by simp [standardDiameters]))

/-- The return value of `runDesign` in terms of the candidates under the
governing forces: it is false if and only if each of the seven diameters is
either rejected by the flexural stage under the governing moment or priced, with
its shear plan under the governing shear, at a `totalCost` that is not below the
initial `bestCost` (`DBL_MAX`). -/
theorem runDesign_false_iff (self : RebarCalc) (r : DesignRequest) :
    (self.runDesign r).1 = false ↔
      ∀ d ∈ standardDiameters,
        (self.loadAnalysis r).flexuralStage d = none
        ∨ ∃ t p, (self.loadAnalysis r).evaluateCandidate d = some (t, p)
            ∧ DBL_MAX ≤ t.totalCost := by
  have hfst : (self.runDesign r).1 = (standardDiameters.foldl searchStep
      (SearchState.init (self.loadAnalysis r))).solutionFound := by
    simp only [RebarCalc.runDesign]; rw [findOptimalDesign_fst]
  rw [hfst, foldl_notFound_iff standardDiameters (SearchState.init (self.loadAnalysis r)) rfl]
  simp only [SearchState.init]
  constructor
  · intro h d hd
    cases he : (self.loadAnalysis r).evaluateCandidate d with
    | none => exact Or.inl ((evaluateCandidate_eq_none_iff _ _).1 he)
    | some c =>
      obtain ⟨t, p⟩ := c
      exact Or.inr ⟨t, p, rfl, not_lt.1 (h d hd t p he)⟩
  · intro h d hd t p he
    rcases h d hd with hn | ⟨t1, p1, he1, hc⟩
    · rw [(evaluateCandidate_eq_none_iff _ _).2 hn] at he
      exact absurd he (by simp)
    · rw [he1] at he
      simp only [Option.some.injEq, Prod.mk.injEq] at he
      rw [← he.1]
      exact not_lt.2 hc

/-- C5, evaluated at the 15 m girder: under the governing moment
(`8346375000/17`, about 4.9e8) the flexural stage rejects every diameter except
25; `runDesign` returns true, but the stored design has diameter 28 and 2 bars,
a candidate that the flexural stage rejects under the governing moment: the
loop accepted diameter 25, which overwrote the forces, and then sized diameter
28 for zero moment. -/
theorem C5_stored_design_not_a_passing_candidate :
    standardDiameters.filter
        (fun d => ((RebarCalc.loadAnalysis {} requestFifteenMetres).flexuralStage d).isSome)
      = [25]
    ∧ (RebarCalc.loadAnalysis {} requestFifteenMetres).flexuralStage 28 = none
    ∧ (RebarCalc.runDesign {} requestFifteenMetres).1 = true
    ∧ (storedDesign requestFifteenMetres).flexureRebarDiameter = 28
    ∧ (storedDesign requestFifteenMetres).rebarCountRow1
        + (storedDesign requestFifteenMetres).rebarCountRow2 = 2
    ∧ (stateBeforeIteration requestFifteenMetres 6).solutionFound = true
    ∧ (stateBeforeIteration requestFifteenMetres 6).self.design.flexureRebarDiameter = 25
    ∧ (stateBeforeIteration requestFifteenMetres 6).self.design.maxMoment = 0
    ∧ ((stateBeforeIteration requestFifteenMetres 6).self.flexuralStage 28).isSome = true := by
  refine ⟨?_, ?_, ?_, ?_, ?_, ?_, ?_, ?_, ?_⟩ <;> decide!

/-! ## C1 to C4: the forces after the first accepted candidate -/

/-- The loop of `runDesign` is the fold over all seven diameters. -/
theorem runDesign_fst_eq_stateBeforeIteration (r : DesignRequest) :
    (RebarCalc.runDesign {} r).1 = (stateBeforeIteration r 7).solutionFound := by
  simp only [RebarCalc.runDesign]
  rw [findOptimalDesign_fst]
  rfl

/-- Every accepted candidate overwrites the engine's design with a temporary
design whose force fields are 0: after a successful `runDesign` the stored
`maxMoment` and `maxShear` are 0, whatever `calculateMaxForces` computed. -/
theorem runDesign_success_forces_zero (self : RebarCalc) (r : DesignRequest)
    (h : (self.runDesign r).1 = true) :
    (self.runDesign r).2.design.maxMoment = 0 ∧ (self.runDesign r).2.design.maxShear = 0 := by
  have hf : (standardDiameters.foldl searchStep
      (SearchState.init (self.loadAnalysis r))).solutionFound = true := by
    rw [← findOptimalDesign_fst]; exact h
  obtain ⟨h1, h2, -⟩ := runDesign_found_fields self r hf
  exact ⟨h1, h2⟩

/-- C2, evaluated at the 10 m girder: `runDesign` returns true,
`calculateMaxForces` computed `maxMoment = 5214875000/17` (about 3.07e8) and
`maxShear = 1071250/7` (about 1.53e5), and the stored design reports 0 for
both. -/
theorem C2_stored_forces_are_zero :
    (RebarCalc.runDesign {} requestTenMetres).1 = true
    ∧ (RebarCalc.loadAnalysis {} requestTenMetres).design.maxMoment = 5214875000 / 17
    ∧ (RebarCalc.loadAnalysis {} requestTenMetres).design.maxShear = 1071250 / 7
    ∧ (storedDesign requestTenMetres).maxMoment = 0
    ∧ (storedDesign requestTenMetres).maxShear = 0 := by
  refine ⟨?_, ?_, ?_, ?_, ?_⟩ <;> decide!

/-- C3, evaluated at the 10 m girder: the iteration for diameter 16 (index 1)
starts with the forces of `calculateMaxForces` and accepts its candidate; the
iteration for diameter 18 (index 2) and the later ones start with
`maxMoment = 0` and `maxShear = 0`, so that the flexural stage of diameter 18
lays out 2 bars in the loop where it lays out 8 against the governing moment. -/
theorem C3_forces_change_after_acceptance :
    (stateBeforeIteration requestTenMetres 1).self.design.maxMoment = 5214875000 / 17
    ∧ (stateBeforeIteration requestTenMetres 1).self.design.maxShear = 1071250 / 7
    ∧ (stateBeforeIteration requestTenMetres 2).solutionFound = true
    ∧ (stateBeforeIteration requestTenMetres 2).self.design.maxMoment = 0
    ∧ (stateBeforeIteration requestTenMetres 2).self.design.maxShear = 0
    ∧ (stateBeforeIteration requestTenMetres 6).self.design.maxMoment = 0
    ∧ (stateBeforeIteration requestTenMetres 6).self.design.maxShear = 0
    ∧ (((stateBeforeIteration requestTenMetres 2).self.flexuralStage 18).map
          (fun c => c.1.rebarCountRow1 + c.1.rebarCountRow2)) = some 2
    ∧ (((RebarCalc.loadAnalysis {} requestTenMetres).flexuralStage 18).map
          (fun c => c.1.rebarCountRow1 + c.1.rebarCountRow2)) = some 8 := by
  refine ⟨?_, ?_, ?_, ?_, ?_, ?_, ?_, ?_, ?_⟩ <;> decide!

/-- C4, evaluated at the 10 m girder: the stored design has diameter 18 and
`2 + 0` bars, the claim's formula gives 8 bars for the governing moment, and
the provided steel area `2*pi*9^2` is below the area
`maxMoment/(400*0.9*453)` that the governing moment requires. -/
theorem C4_stored_bar_count_below_required :
    (RebarCalc.runDesign {} requestTenMetres).1 = true
    ∧ (storedDesign requestTenMetres).flexureRebarDiameter = 18
    ∧ (storedDesign requestTenMetres).rebarCountRow1
        + (storedDesign requestTenMetres).rebarCountRow2 = 2
    ∧ claimedBarCount (RebarCalc.loadAnalysis {} requestTenMetres).design.maxMoment
        300 500 18 = 8
    ∧ (2 : ℚ) * (M_PI * (18 / 2) ^ 2)
        < (RebarCalc.loadAnalysis {} requestTenMetres).design.maxMoment
            / (400 * 0.9 * (500 - 30 - 8 - 18 / 2)) := by
  refine ⟨?_, ?_, ?_, ?_, ?_⟩ <;> decide!

/-- C1, evaluated at the shallow girder: `runDesign` returns true and stores the
diameter-14 candidate at a `totalCost` of about 271256.04; diameter 16, laid out
and priced against the governing `maxMoment` and `maxShear`, passes the
flexural stage (7 bars in rows of 4 and 3, recomputed `h0 = -11/7`, so `xi` is
negative) and costs about 259718.55, which is less; the loop itself evaluated
diameter 16 after the acceptance of diameter 14, against zero forces, and
rejected it. -/
theorem C1_stored_design_not_cheapest :
    (RebarCalc.runDesign {} requestShallow).1 = true
    ∧ (storedDesign requestShallow).flexureRebarDiameter = 14
    ∧ (storedDesign requestShallow).totalCost
        = 54251208489385858765198594479 / 200000000000000000000000
    ∧ (((RebarCalc.loadAnalysis {} requestShallow).evaluateCandidate 16).map
          (fun c => c.1.totalCost))
        = some (2029051144434520697264584249 / 7812500000000000000000)
    ∧ (2029051144434520697264584249 / 7812500000000000000000 : ℚ)
        < 54251208489385858765198594479 / 200000000000000000000000
    ∧ (stateBeforeIteration requestShallow 1).self.evaluateCandidate 16 = none := by
  refine ⟨?_, ?_, ?_, ?_, ?_, ?_⟩ <;> decide!

/-! ## C11 and C12: the force formulas -/

/-- C11. Given the moment load `W` passed to `calculateMaxForces`,
`maxMoment = q*L^2/8 + R_A*x` with `q = width*height*2.5e-5`, `L = span`,
`d = wheelSpan` in mm, `P = W/2`, `x = L/2 - d/4` and
`R_A = (P*(L - x) + P*(L - x - d))/L`; in `runDesign`, `d` is the input
wheelSpan times 1000 and `W` the load that `runDesign` passes. -/
theorem C11_moment_model (self : RebarCalc) (W Ws : ℚ) (r : DesignRequest) :
    (self.calculateMaxForces W Ws).design.maxMoment
      = self.params.width * self.params.height * 2.5e-5 * self.params.span ^ 2 / 8
        + (W / 2 * (self.params.span - (self.params.span / 2 - self.params.wheelSpan / 4))
            + W / 2 * (self.params.span - (self.params.span / 2 - self.params.wheelSpan / 4)
                - self.params.wheelSpan)) / self.params.span
          * (self.params.span / 2 - self.params.wheelSpan / 4)
    ∧ (self.loadAnalysis r).design.maxMoment
      = r.width * r.height * 2.5e-5 * r.span ^ 2 / 8
        + (vehicleLoadForMoment r / 2 * (r.span - (r.span / 2 - r.wheelSpan * 1000 / 4))
            + vehicleLoadForMoment r / 2 * (r.span - (r.span / 2 - r.wheelSpan * 1000 / 4)
                - r.wheelSpan * 1000)) / r.span
          * (r.span / 2 - r.wheelSpan * 1000 / 4) := by
  constructor
  · simp only [RebarCalc.calculateMaxForces, CONCRETE_UNIT_WEIGHT]
    norm_num
    ring
  · simp only [RebarCalc.loadAnalysis, RebarCalc.calculateMaxForces, RebarCalc.resetDesign,
      CONCRETE_UNIT_WEIGHT]
    norm_num
    ring

/-- C12. Given the shear load `W` passed to `calculateMaxForces`,
`maxShear = q*span/2 + (P*span + P*(span - wheelSpan_mm))/span` with
`q = width*height*2.5e-5` and `P = W/2`; in `runDesign`, `wheelSpan_mm` is the
input wheelSpan times 1000 and `W` the load that `runDesign` passes. -/
theorem C12_shear_model (self : RebarCalc) (Wm W : ℚ) (r : DesignRequest) :
    (self.calculateMaxForces Wm W).design.maxShear
      = self.params.width * self.params.height * 2.5e-5 * self.params.span / 2
        + (W / 2 * self.params.span + W / 2 * (self.params.span - self.params.wheelSpan))
          / self.params.span
    ∧ (self.loadAnalysis r).design.maxShear
      = r.width * r.height * 2.5e-5 * r.span / 2
        + (vehicleLoadForShear r / 2 * r.span
            + vehicleLoadForShear r / 2 * (r.span - r.wheelSpan * 1000)) / r.span := by
  constructor
  · simp only [RebarCalc.calculateMaxForces, CONCRETE_UNIT_WEIGHT]
    norm_num
  · simp only [RebarCalc.loadAnalysis, RebarCalc.calculateMaxForces, RebarCalc.resetDesign,
      CONCRETE_UNIT_WEIGHT]
    norm_num

/-! ## C19: the engine state before the call -/

/-- C19. The boolean result and the engine that `runDesign` leaves (its stored
`RebarDesign` in particular) depend only on the six arguments: for any two
engine states before the call, `runDesign` on the same request yields the same
result and the same stored design. -/
theorem C19_runDesign_ignores_previous_state (s1 s2 : RebarCalc) (r : DesignRequest) :
    (s1.runDesign r).1 = (s2.runDesign r).1
    ∧ (s1.runDesign r).2.design = (s2.runDesign r).2.design
    ∧ s1.runDesign r = s2.runDesign r :=
  ⟨rfl, rfl, rfl⟩

/-! ## C14 and C16: the shear stage -/

/-- The closing block of the shear stage yields 100, 125, 150, 175 or 200. -/
theorem stirrupSpacingFor_mem (A h0 Vs : ℚ) :
    stirrupSpacingFor A h0 Vs = 100 ∨ stirrupSpacingFor A h0 Vs = 125
    ∨ stirrupSpacingFor A h0 Vs = 150 ∨ stirrupSpacingFor A h0 Vs = 175
    ∨ stirrupSpacingFor A h0 Vs = 200 := by
  simp only [stirrupSpacingFor]
  split_ifs with h1 h2 h3 h4
  · exact absurd h3 (by norm_num)
  · right; right; right; right; rfl
  · left; rfl
  · -- the floored value lies in [100, 200]
    have hk1 : (⌊A * STEEL_FY * h0 / Vs / 25.0⌋ : ℚ) * 25.0 ≤ 200 := not_lt.1 h2
    have hk2 : (100 : ℚ) ≤ (⌊A * STEEL_FY * h0 / Vs / 25.0⌋ : ℚ) * 25.0 := not_lt.1 h4
    generalize ⌊A * STEEL_FY * h0 / Vs / 25.0⌋ = k at hk1 hk2 ⊢
    have h8 : k ≤ 8 := by
      have : (k : ℚ) ≤ 8 := by norm_num at hk1; linarith
      exact_mod_cast this
    have h4' : 4 ≤ k := by
      have : (4 : ℚ) ≤ (k : ℚ) := by norm_num at hk2; linarith
      exact_mod_cast this
    interval_cases k <;> norm_num
  · right; right; right; right; rfl

theorem designShearForIteration_stirrupSpacing_eq (self : RebarCalc) (t : RebarDesign)
    (p : BridgeParams) :
    ∃ A h Vs, (self.designShearForIteration t p).stirrupSpacing = stirrupSpacingFor A h Vs := by
  simp only [RebarCalc.designShearForIteration]
  split_ifs with h1 h2
  · exact ⟨0, 0, 0, by simp [stirrupSpacingFor]⟩
  · exact ⟨_, _, _, rfl⟩
  · exact ⟨_, _, _, rfl⟩

/-- C14. For every engine state, candidate layout and geometry,
`designShearForIteration` sets `stirrupSpacing` to a multiple of 25 within
[100, 200], that is to one of 100, 125, 150, 175, 200. -/
theorem C14_spacing_invariant (self : RebarCalc) (t : RebarDesign) (p : BridgeParams) :
    (∃ k : ℤ, (self.designShearForIteration t p).stirrupSpacing = 25 * k)
    ∧ 100 ≤ (self.designShearForIteration t p).stirrupSpacing
    ∧ (self.designShearForIteration t p).stirrupSpacing ≤ 200
    ∧ ((self.designShearForIteration t p).stirrupSpacing = 100
      ∨ (self.designShearForIteration t p).stirrupSpacing = 125
      ∨ (self.designShearForIteration t p).stirrupSpacing = 150
      ∨ (self.designShearForIteration t p).stirrupSpacing = 175
      ∨ (self.designShearForIteration t p).stirrupSpacing = 200) := by
  obtain ⟨A, h, Vs, he⟩ := designShearForIteration_stirrupSpacing_eq self t p
  rw [he]
  rcases stirrupSpacingFor_mem A h Vs with h1 | h1 | h1 | h1 | h1 <;> rw [h1]
  · exact ⟨⟨4, by norm_num⟩, by norm_num, by norm_num, by norm_num⟩
  · exact ⟨⟨5, by norm_num⟩, by norm_num, by norm_num, by norm_num⟩
  · exact ⟨⟨6, by norm_num⟩, by norm_num, by norm_num, by norm_num⟩
  · exact ⟨⟨7, by norm_num⟩, by norm_num, by norm_num, by norm_num⟩
  · exact ⟨⟨8, by norm_num⟩, by norm_num, by norm_num, by norm_num⟩

theorem stirrupSpacingFor_eq (h0 Vs : ℚ) :
    stirrupSpacingFor ((2 : ℤ) * (M_PI * ((8 : ℚ) / 2.0) ^ 2)) h0 Vs
      = if Vs ≤ 0 then 200 else flooredClampedSpacing (unclampedSpacing h0 Vs) := by
  have hA : ((2 : ℤ) : ℚ) * (M_PI * ((8 : ℚ) / 2.0) ^ 2) * STEEL_FY * h0 / Vs
      = unclampedSpacing h0 Vs := by
    simp only [unclampedSpacing]; norm_num; ring
  simp only [stirrupSpacingFor, flooredClampedSpacing]
  rw [hA]
  have h25 : ((25.0 : ℚ)) = 25 := by norm_num
  rw [h25]
  generalize (⌊unclampedSpacing h0 Vs / 25⌋ : ℚ) * 25 = s
  by_cases hv : Vs ≤ 0
  · rw [if_neg (not_lt.2 hv), if_pos hv]
  · rw [if_pos (not_le.1 hv), if_neg hv]
    by_cases h2 : s > 200
    · rw [if_pos h2, if_neg (by norm_num), min_eq_left (le_of_lt h2)]
      norm_num
    · rw [if_neg h2, min_eq_right (not_lt.1 h2)]
      by_cases h1 : s < 100
      · rw [if_pos h1, max_eq_left (le_of_lt h1)]
      · rw [if_neg h1, max_eq_right (not_lt.1 h1)]

/-- C16. `designShearForIteration` sets `bentRebarsUsed = true` with
`bentRebarCount = 2` if and only if `Vs = maxShear - 0.20*ft*width*h0` is
positive, the stirrup-only spacing `(2*pi*4^2*fy*h0)/Vs` is below 100 and
`rebarCountRow1 >= 2`; in that case the final spacing comes from the reduced
demand `Vs - Vsb` (200 if `Vs - Vsb <= 0`, otherwise floored to a multiple of 25
and clamped to [100, 200]); otherwise `bentRebarsUsed = false` and
`bentRebarCount = 0`. -/
theorem C16_bent_bar_activation (self : RebarCalc) (t : RebarDesign) (p : BridgeParams) :
    (((self.designShearForIteration t p).bentRebarsUsed = true
        ∧ (self.designShearForIteration t p).bentRebarCount = 2)
      ↔ (0 < shearDemand self.design.maxShear p.width p.h0
          ∧ unclampedSpacing p.h0 (shearDemand self.design.maxShear p.width p.h0) < 100
          ∧ 2 ≤ t.rebarCountRow1))
    ∧ (if 0 < shearDemand self.design.maxShear p.width p.h0
          ∧ unclampedSpacing p.h0 (shearDemand self.design.maxShear p.width p.h0) < 100
          ∧ 2 ≤ t.rebarCountRow1
        then (self.designShearForIteration t p).stirrupSpacing
          = (if shearDemand self.design.maxShear p.width p.h0
                - bentBarRelief t.flexureRebarDiameter ≤ 0 then 200
              else flooredClampedSpacing (unclampedSpacing p.h0
                (shearDemand self.design.maxShear p.width p.h0
                  - bentBarRelief t.flexureRebarDiameter)))
        else (self.designShearForIteration t p).bentRebarsUsed = false
          ∧ (self.designShearForIteration t p).bentRebarCount = 0) := by
  have hVs : self.design.maxShear - 0.20 * CONCRETE_FT * p.width * p.h0
      = shearDemand self.design.maxShear p.width p.h0 := rfl
  have hs0 : ((2 : ℤ) : ℚ) * (M_PI * ((8 : ℚ) / 2.0) ^ 2) * STEEL_FY * p.h0
      / shearDemand self.design.maxShear p.width p.h0
      = unclampedSpacing p.h0 (shearDemand self.design.maxShear p.width p.h0) := by
    simp only [unclampedSpacing]; norm_num; ring
  have hVsb : 0.75 * STEEL_FY * (((2 : ℤ) : ℚ) * (M_PI * (t.flexureRebarDiameter / 2.0) ^ 2))
      * SIN_PI_4 = bentBarRelief t.flexureRebarDiameter := by
    simp only [bentBarRelief]; push_cast; ring
  simp only [RebarCalc.designShearForIteration, hVs, hs0, hVsb]
  by_cases h1 : shearDemand self.design.maxShear p.width p.h0 ≤ 0
  · rw [if_pos h1]
    have hn : ¬ (0 < shearDemand self.design.maxShear p.width p.h0
        ∧ unclampedSpacing p.h0 (shearDemand self.design.maxShear p.width p.h0) < 100
        ∧ 2 ≤ t.rebarCountRow1) := fun h => absurd h.1 (not_lt.2 h1)
    rw [if_neg hn]
    simp [hn]
  · rw [if_neg h1]
    have h1' := not_le.1 h1
    by_cases h2 : unclampedSpacing p.h0 (shearDemand self.design.maxShear p.width p.h0) < 100.0
        ∧ t.rebarCountRow1 ≥ 2
    · rw [if_pos h2]
      have hc : 0 < shearDemand self.design.maxShear p.width p.h0
          ∧ unclampedSpacing p.h0 (shearDemand self.design.maxShear p.width p.h0) < 100
          ∧ 2 ≤ t.rebarCountRow1 := ⟨h1', by have := h2.1; norm_num at this; exact this, h2.2⟩
      rw [if_pos hc]
      refine ⟨by simp [hc], ?_⟩
      exact stirrupSpacingFor_eq _ _
    · rw [if_neg h2]
      have hn : ¬ (0 < shearDemand self.design.maxShear p.width p.h0
          ∧ unclampedSpacing p.h0 (shearDemand self.design.maxShear p.width p.h0) < 100
          ∧ 2 ≤ t.rebarCountRow1) := by
        intro h
        exact h2 ⟨by have := h.2.1; norm_num; exact this, h.2.2⟩
      rw [if_neg hn]
      simp [hn]

/-! ## What a candidate that passes the stages looks like -/

theorem totalBarsFor_ge_two (self : RebarCalc) (p : BridgeParams) (d : ℚ) :
    2 ≤ self.totalBarsFor p d := by
  simp only [RebarCalc.totalBarsFor]
  split_ifs with h1 h2 h3
  · exact le_refl 2
  · exact not_lt.1 h2
  · exact le_refl 2
  · exact not_lt.1 h3

/-- The two outcomes of the row arrangement. -/
theorem arrangeRows_spec {t t1 : RebarDesign} {p p1 : BridgeParams} {d : ℚ} {n m : ℤ}
    (h : arrangeRows t p d n m = some (t1, p1)) :
    (n ≤ m ∧ t1.rebarRows = 1 ∧ t1.rebarCountRow1 = n ∧ t1.rebarCountRow2 = t.rebarCountRow2
      ∧ p1 = p)
    ∨ (¬ n ≤ m ∧ t1.rebarRows = 2 ∧ t1.rebarCountRow1 = ⌈(n : ℚ) / 2⌉
      ∧ t1.rebarCountRow2 = n - ⌈(n : ℚ) / 2⌉
      ∧ ⌈(n : ℚ) / 2⌉ ≤ m ∧ n - ⌈(n : ℚ) / 2⌉ ≤ m
      ∧ p1.h0 = p.height -
          ((((⌈(n : ℚ) / 2⌉ : ℤ) : ℚ) * (M_PI * (d / 2) ^ 2) * (30 + 8 + d / 2)
            + (((n - ⌈(n : ℚ) / 2⌉ : ℤ)) : ℚ) * (M_PI * (d / 2) ^ 2) * (30 + 8 + d / 2 + d + 25))
          / ((((⌈(n : ℚ) / 2⌉ : ℤ)) : ℚ) * (M_PI * (d / 2) ^ 2)
            + (((n - ⌈(n : ℚ) / 2⌉ : ℤ)) : ℚ) * (M_PI * (d / 2) ^ 2)))) := by
  have h2 : (2.0 : ℚ) = 2 := by norm_num
  simp only [arrangeRows, h2] at h
  split_ifs at h with h1 h3
  · simp only [Option.some.injEq, Prod.mk.injEq] at h
    obtain ⟨rfl, rfl⟩ := h
    exact Or.inl ⟨h1, rfl, rfl, rfl, rfl⟩
  · simp only [Option.some.injEq, Prod.mk.injEq] at h
    obtain ⟨rfl, rfl⟩ := h
    refine Or.inr ⟨h1, rfl, rfl, rfl, ?_, ?_, ?_⟩
    · exact not_lt.1 (fun hc => h3 (Or.inl hc))
    · exact not_lt.1 (fun hc => h3 (Or.inr hc))
    · simp only [CONCRETE_COVER]
      norm_num

/-- What the flexural stage has established when it hands a candidate on. -/
theorem flexuralStage_spec {self : RebarCalc} {d : ℚ} {t : RebarDesign} {p : BridgeParams}
    (h : self.flexuralStage d = some (t, p)) :
    0 < self.params.height - 30 - 8 - d / 2
    ∧ calculateMaxBarsPerRow d { self.params with h0 := self.params.height - 30 - 8 - d / 2 } ≠ 0
    ∧ arrangeRows { flexureRebarDiameter := d }
        { self.params with h0 := self.params.height - 30 - 8 - d / 2 } d
        (self.totalBarsFor { self.params with h0 := self.params.height - 30 - 8 - d / 2 } d)
        (calculateMaxBarsPerRow d { self.params with h0 := self.params.height - 30 - 8 - d / 2 })
        = some (t, p)
    ∧ ductilityRejected p d
        (self.totalBarsFor { self.params with h0 := self.params.height - 30 - 8 - d / 2 } d)
        = false := by
  have e : self.params.height - CONCRETE_COVER - 8.0 - d / 2.0
      = self.params.height - 30 - 8 - d / 2 := by
    simp only [CONCRETE_COVER]; norm_num
  simp only [RebarCalc.flexuralStage, e] at h
  split_ifs at h with h1 h2
  split at h
  · exact absurd h (by simp)
  · rename_i t1 p1 hl
    split_ifs at h with h3
    simp only [Option.some.injEq, Prod.mk.injEq] at h
    obtain ⟨rfl, rfl⟩ := h
    exact ⟨not_le.1 h1, h2, hl, by simpa using h3⟩

theorem evaluateCandidate_spec {s : RebarCalc} {d : ℚ} {t : RebarDesign} {p : BridgeParams}
    (h : s.evaluateCandidate d = some (t, p)) :
    ∃ t0, s.flexuralStage d = some (t0, p)
      ∧ t = calculateTotalCostForIteration (s.designShearForIteration t0 p) p := by
  simp only [RebarCalc.evaluateCandidate] at h
  split at h
  · exact absurd h (by simp)
  · rename_i t0 p0 hf
    simp only [Option.some.injEq, Prod.mk.injEq] at h
    obtain ⟨rfl, rfl⟩ := h
    exact ⟨t0, hf, rfl⟩

/-- Every candidate priced by the loop was evaluated for one of the diameters of
the loop, against an engine that has the geometry of the entry state. -/
theorem evaluatedCandidates_mem (ds : List ℚ) :
    ∀ (st : SearchState) (c : RebarDesign × BridgeParams), c ∈ evaluatedCandidates st ds →
      ∃ (s : RebarCalc) (d : ℚ), d ∈ ds ∧ (∃ h, s.params = { st.self.params with h0 := h })
        ∧ s.evaluateCandidate d = some c := by
  induction ds with
  | nil => intro st c hc; simp [evaluatedCandidates] at hc
  | cons d ds ih =>
    intro st c hc
    simp only [evaluatedCandidates, List.mem_append, Option.mem_toList, Option.mem_def] at hc
    rcases hc with hc | hc
    · exact ⟨st.self, d, List.mem_cons_self _ _, ⟨st.self.params.h0, rfl⟩, hc⟩
    · obtain ⟨s, e, he, ⟨h, hp⟩, hev⟩ := ih _ c hc
      refine ⟨s, e, List.mem_cons_of_mem _ he, ?_, hev⟩
      rcases searchStep_cases st d with h1 | ⟨t, p, -, -, h1⟩
      · rw [h1] at hp; exact ⟨h, hp⟩
      · rw [h1] at hp; exact ⟨h, hp⟩

theorem evaluatedCandidates_diameter_mem (ds : List ℚ) (st : SearchState)
    (c : RebarDesign × BridgeParams) (hc : c ∈ evaluatedCandidates st ds) :
    c.1.flexureRebarDiameter ∈ ds := by
  obtain ⟨s, d, hd, -, hev⟩ := evaluatedCandidates_mem ds st c hc
  obtain ⟨t, p⟩ := c
  obtain ⟨-, -, -, -, h5⟩ := evaluateCandidate_frame hev
  simp only
  rw [h5]; exact hd

/-! ## The best candidate of the loop -/

/-- The outcome of the diameter loop over an ascending list `ds`, in terms of
the candidates it priced: either nothing was accepted (and no candidate was
priced below the entry `bestCost`), or the engine holds a priced candidate that
is below the entry `bestCost`, is at most as expensive as every priced
candidate, and has the smallest diameter among those of equal cost. -/
theorem foldl_best (ds : List ℚ) (hs : ds.Pairwise (· ≤ ·)) :
    ∀ st : SearchState,
      (ds.foldl searchStep st = st
        ∧ ∀ c ∈ evaluatedCandidates st ds, st.bestCost ≤ c.1.totalCost)
      ∨ ((ds.foldl searchStep st).solutionFound = true
        ∧ ∃ c ∈ evaluatedCandidates st ds,
            (ds.foldl searchStep st).self.design = c.1
            ∧ (ds.foldl searchStep st).self.params = { st.self.params with h0 := c.2.h0 }
            ∧ (ds.foldl searchStep st).bestCost = c.1.totalCost
            ∧ c.1.totalCost < st.bestCost
            ∧ ∀ c' ∈ evaluatedCandidates st ds,
                c.1.totalCost ≤ c'.1.totalCost
                ∧ (c'.1.totalCost = c.1.totalCost →
                    c.1.flexureRebarDiameter ≤ c'.1.flexureRebarDiameter)) := by
  induction ds with
  | nil => intro st; left; exact ⟨rfl, by simp [evaluatedCandidates]⟩
  | cons d ds ih =>
    intro st
    obtain ⟨hd, hs'⟩ := List.pairwise_cons.1 hs
    rw [List.foldl_cons]
    cases he : st.self.evaluateCandidate d with
    | none =>
      have h1 : searchStep st d = st := searchStep_of_none he
      have hE : evaluatedCandidates st (d :: ds) = evaluatedCandidates st ds := by
        simp [evaluatedCandidates, he, h1]
      rw [h1, hE]
      exact ih hs' st
    | some cd =>
      obtain ⟨t, p⟩ := cd
      by_cases hc : t.totalCost < st.bestCost
      · -- the candidate of `d` is accepted
        have h1 := searchStep_of_lt he hc
        have hE : evaluatedCandidates st (d :: ds)
            = (t, p) :: evaluatedCandidates (searchStep st d) ds := by
          simp [evaluatedCandidates, he]
        have htd : t.flexureRebarDiameter = d := (evaluateCandidate_frame he).2.2.2.2
        rw [hE]
        right
        rcases ih hs' (searchStep st d) with ⟨hF, hall⟩ | ⟨hF, c, hcm, h2, h3, h4, h5, h6⟩
        · rw [hF]
          refine ⟨by rw [h1], (t, p), List.mem_cons_self _ _, by rw [h1], by rw [h1],
            by rw [h1], hc, ?_⟩
          intro c' hc'
          rcases List.mem_cons.1 hc' with rfl | hc'
          · exact ⟨le_refl _, fun _ => le_refl _⟩
          · have hb := hall c' hc'
            rw [h1] at hb
            refine ⟨hb, fun _ => ?_⟩
            rw [htd]
            exact hd _ (evaluatedCandidates_diameter_mem ds _ c' hc')
        · have hb : (searchStep st d).bestCost = t.totalCost := by rw [h1]
          have hp : (searchStep st d).self.params = { st.self.params with h0 := p.h0 } := by
            rw [h1]
          refine ⟨hF, c, List.mem_cons_of_mem _ hcm, h2, ?_, h4, ?_, ?_⟩
          · rw [h3, hp]
          · rw [hb] at h5; exact lt_trans h5 hc
          · intro c' hc'
            rcases List.mem_cons.1 hc' with rfl | hc'
            · rw [hb] at h5
              exact ⟨le_of_lt h5, fun heq => absurd heq (ne_of_gt h5)⟩
            · exact h6 c' hc'
      · -- the candidate of `d` is priced but not accepted
        have h1 : searchStep st d = st := searchStep_of_not_lt he hc
        have hE : evaluatedCandidates st (d :: ds) = (t, p) :: evaluatedCandidates st ds := by
          simp [evaluatedCandidates, he, h1]
        rw [h1, hE]
        rcases ih hs' st with ⟨hF, hall⟩ | ⟨hF, c, hcm, h2, h3, h4, h5, h6⟩
        · left
          refine ⟨hF, ?_⟩
          intro c' hc'
          rcases List.mem_cons.1 hc' with rfl | hc'
          · exact not_lt.1 hc
          · exact hall c' hc'
        · right
          refine ⟨hF, c, List.mem_cons_of_mem _ hcm, h2, h3, h4, h5, ?_⟩
          intro c' hc'
          rcases List.mem_cons.1 hc' with rfl | hc'
          · have hlt : c.1.totalCost < t.totalCost := lt_of_lt_of_le h5 (not_lt.1 hc)
            exact ⟨le_of_lt hlt, fun heq => absurd heq (ne_of_gt hlt)⟩
          · exact h6 c' hc'

theorem standardDiameters_pairwise : standardDiameters.Pairwise (· ≤ ·) := by
  simp only [standardDiameters, List.pairwise_cons, List.mem_cons, List.mem_singleton,
    List.not_mem_nil, forall_eq_or_imp, forall_eq]
  norm_num

/-- After a successful `runDesign` the stored design and the stored `h0` are
those of a candidate that the loop priced, of least cost among the priced
candidates and of least diameter among those of equal cost. -/
theorem runDesign_stored_best (self : RebarCalc) (r : DesignRequest)
    (h : (self.runDesign r).1 = true) :
    ∃ c ∈ evaluatedCandidates (SearchState.init (self.loadAnalysis r)) standardDiameters,
      (self.runDesign r).2.design = c.1
      ∧ (self.runDesign r).2.params = { (self.loadAnalysis r).params with h0 := c.2.h0 }
      ∧ ∀ c' ∈ evaluatedCandidates (SearchState.init (self.loadAnalysis r)) standardDiameters,
          c.1.totalCost ≤ c'.1.totalCost
          ∧ (c'.1.totalCost = c.1.totalCost →
              c.1.flexureRebarDiameter ≤ c'.1.flexureRebarDiameter) := by
  have hf : (standardDiameters.foldl searchStep
      (SearchState.init (self.loadAnalysis r))).solutionFound = true := by
    rw [← findOptimalDesign_fst]; exact h
  obtain ⟨-, h2⟩ := runDesign_of_found self r hf
  rcases foldl_best standardDiameters standardDiameters_pairwise
      (SearchState.init (self.loadAnalysis r)) with ⟨hF, -⟩ | ⟨-, c, hcm, h3, h4, -, -, h6⟩
  · rw [hF] at hf
    exact absurd hf (by simp [SearchState.init])
  · exact ⟨c, hcm, by rw [h2, h3], by rw [h2, h4]; rfl, h6⟩

/-- After a successful `runDesign` the stored design is the priced result of a
candidate that passed the flexural stage for one of the standard diameters, on
an engine with the geometry of the request; the stored `h0` is that
candidate's. -/
theorem runDesign_stored_provenance (self : RebarCalc) (r : DesignRequest)
    (h : (self.runDesign r).1 = true) :
    ∃ (s : RebarCalc) (d : ℚ) (t0 : RebarDesign) (p : BridgeParams),
      d ∈ standardDiameters
      ∧ s.params.width = r.width ∧ s.params.height = r.height ∧ s.params.span = r.span
      ∧ s.params.girderSpacing = r.girderSpacing
      ∧ s.flexuralStage d = some (t0, p)
      ∧ (self.runDesign r).2.design
          = calculateTotalCostForIteration (s.designShearForIteration t0 p) p
      ∧ (self.runDesign r).2.params.h0 = p.h0
      ∧ (self.runDesign r).2.params.width = r.width := by
  obtain ⟨c, hcm, h1, h2, -⟩ := runDesign_stored_best self r h
  obtain ⟨s, d, hd, ⟨h0, hp⟩, hev⟩ := evaluatedCandidates_mem _ _ c hcm
  obtain ⟨t, p⟩ := c
  obtain ⟨t0, hf, ht⟩ := evaluateCandidate_spec hev
  have hg := loadAnalysis_params self r
  simp only [SearchState.init] at hp
  refine ⟨s, d, t0, p, hd, ?_, ?_, ?_, ?_, hf, ?_, ?_, ?_⟩
  · rw [hp, hg]
  · rw [hp, hg]
  · rw [hp, hg]
  · rw [hp, hg]
  · rw [h1, ← ht]
  · rw [h2]
  · rw [h2, hg]

/-! ## C13: ductility -/

theorem ductilityRejected_false_iff (p : BridgeParams) (d : ℚ) (n : ℤ)
    (h : ductilityRejected p d n = false) :
    p.h0 ≠ 0 ∧ ductilityRatio n d p.width p.h0 < 0.518 := by
  simp only [ductilityRejected, decide_eq_false_iff_not, not_or, ge_iff_le, not_le] at h
  refine ⟨h.1, ?_⟩
  have e : (n : ℚ) * (M_PI * (d / 2.0) ^ 2) * STEEL_FY / (1.0 * CONCRETE_FC * p.width) / p.h0
      = ductilityRatio n d p.width p.h0 := by
    simp only [ductilityRatio]; norm_num; ring
  rw [e] at h
  have h2 := h.2
  simp only [XI_B_LIMIT] at h2
  exact h2

/-- The facts about a candidate that passed the flexural stage which the
claims on layouts use: its diameter, its bar count and row split, the packing of
each row, and the ductility ratio at its final `h0`. -/
theorem flexuralStage_layout {s : RebarCalc} {d : ℚ} {t : RebarDesign} {p : BridgeParams}
    (h : s.flexuralStage d = some (t, p)) :
    t.flexureRebarDiameter = d
    ∧ p.width = s.params.width
    ∧ t.rebarCountRow1 + t.rebarCountRow2
        = s.totalBarsFor { s.params with h0 := s.params.height - 30 - 8 - d / 2 } d
    ∧ (t.rebarRows = 2 →
        t.rebarCountRow1 = ⌈((t.rebarCountRow1 + t.rebarCountRow2 : ℤ) : ℚ) / 2⌉)
    ∧ t.rebarCountRow1
        ≤ calculateMaxBarsPerRow d { s.params with h0 := s.params.height - 30 - 8 - d / 2 }
    ∧ t.rebarCountRow2
        ≤ calculateMaxBarsPerRow d { s.params with h0 := s.params.height - 30 - 8 - d / 2 }
    ∧ calculateMaxBarsPerRow d { s.params with h0 := s.params.height - 30 - 8 - d / 2 } ≠ 0
    ∧ ductilityRatio (t.rebarCountRow1 + t.rebarCountRow2) d p.width p.h0 < 0.518 := by
  obtain ⟨-, hm, ha, hx⟩ := flexuralStage_spec h
  obtain ⟨-, -, -, -, hd⟩ := flexuralStage_frame h
  obtain ⟨-, -, -, -, -, -, hw, -⟩ := arrangeRows_frame ha
  have hn := totalBarsFor_ge_two s { s.params with h0 := s.params.height - 30 - 8 - d / 2 } d
  have hx' := (ductilityRejected_false_iff _ _ _ hx).2
  rcases arrangeRows_spec ha with ⟨h1, h2, h3, h4, -⟩ | ⟨h1, h2, h3, h4, h5, h6, -⟩
  · have h4' : t.rebarCountRow2 = 0 := h4
    have hsum : t.rebarCountRow1 + t.rebarCountRow2
        = s.totalBarsFor { s.params with h0 := s.params.height - 30 - 8 - d / 2 } d := by
      rw [h3, h4']; ring
    refine ⟨hd, hw, hsum, ?_, ?_, ?_, hm, ?_⟩
    · intro hr; rw [h2] at hr; exact absurd hr (by norm_num)
    · rw [h3]; exact h1
    · rw [h4']; omega
    · rw [hsum]; exact hx'
  · have hsum : t.rebarCountRow1 + t.rebarCountRow2
        = s.totalBarsFor { s.params with h0 := s.params.height - 30 - 8 - d / 2 } d := by
      rw [h3, h4]; ring
    refine ⟨hd, hw, hsum, ?_, ?_, ?_, hm, ?_⟩
    · intro _; rw [hsum]; exact h3
    · rw [h3]; exact h5
    · rw [h4]; exact h6
    · rw [hsum]; exact hx'

/-- The shear stage and the cost keep the layout of the candidate. -/
theorem priced_layout (s : RebarCalc) (t0 : RebarDesign) (p : BridgeParams) :
    (calculateTotalCostForIteration (s.designShearForIteration t0 p) p).flexureRebarDiameter
        = t0.flexureRebarDiameter
    ∧ (calculateTotalCostForIteration (s.designShearForIteration t0 p) p).rebarRows
        = t0.rebarRows
    ∧ (calculateTotalCostForIteration (s.designShearForIteration t0 p) p).rebarCountRow1
        = t0.rebarCountRow1
    ∧ (calculateTotalCostForIteration (s.designShearForIteration t0 p) p).rebarCountRow2
        = t0.rebarCountRow2 := by
  obtain ⟨-, -, -, -, a5, a6, a7, a8⟩ := designShearForIteration_frame s t0 p
  obtain ⟨-, -, -, -, b5, b6, b7, b8⟩ :=
    calculateTotalCostForIteration_frame (s.designShearForIteration t0 p) p
  exact ⟨by rw [b5, a5], by rw [b6, a6], by rw [b7, a7], by rw [b8, a8]⟩

/-- C13. For every candidate that passes the flexural stage of
`findOptimalDesign`, on any engine state and for any diameter,
`xi = (totalBars*pi*(d/2)^2*fy / (fc*width)) / h0` at the candidate's final `h0`
is strictly below 0.518; and so it is for the design and `h0` stored by every
successful `runDesign`. -/
theorem C13_ductility_invariant :
    (∀ (s : RebarCalc) (d : ℚ) (t : RebarDesign) (p : BridgeParams),
      s.flexuralStage d = some (t, p) →
        ductilityRatio (t.rebarCountRow1 + t.rebarCountRow2) d p.width p.h0 < 0.518)
    ∧ (∀ (self : RebarCalc) (r : DesignRequest), (self.runDesign r).1 = true →
        ductilityRatio
          ((self.runDesign r).2.design.rebarCountRow1 + (self.runDesign r).2.design.rebarCountRow2)
          (self.runDesign r).2.design.flexureRebarDiameter
          (self.runDesign r).2.params.width (self.runDesign r).2.params.h0 < 0.518) := by
  constructor
  · intro s d t p h
    exact (flexuralStage_layout h).2.2.2.2.2.2.2
  · intro self r h
    obtain ⟨s, d, t0, p, -, hw, -, -, -, hf, hD, hh0, hW⟩ := runDesign_stored_provenance self r h
    obtain ⟨l1, l2, -, -, -, -, -, l8⟩ := flexuralStage_layout hf
    obtain ⟨q1, -, q3, q4⟩ := priced_layout s t0 p
    rw [hD, q1, q3, q4, hh0, hW, l1, ← hw, ← l2]
    exact l8

/-- Witness of C13: diameter 16 for the 10 m girder, and the stored design of
that request. -/
theorem C13_ductility_invariant_witness :
    (RebarCalc.loadAnalysis {} requestTenMetres).flexuralStage 16
        = some (layoutSixteen, paramsSixteen)
    ∧ ductilityRatio (layoutSixteen.rebarCountRow1 + layoutSixteen.rebarCountRow2) 16
        paramsSixteen.width paramsSixteen.h0 < 0.518
    ∧ (RebarCalc.runDesign {} requestTenMetres).1 = true
    ∧ ductilityRatio
        ((storedDesign requestTenMetres).rebarCountRow1
          + (storedDesign requestTenMetres).rebarCountRow2)
        (storedDesign requestTenMetres).flexureRebarDiameter
        (RebarCalc.runDesign {} requestTenMetres).2.params.width
        (RebarCalc.runDesign {} requestTenMetres).2.params.h0 < 0.518 :=
  ⟨by decide!,
    C13_ductility_invariant.1 (RebarCalc.loadAnalysis {} requestTenMetres) 16 layoutSixteen
      paramsSixteen (by decide!),
    by decide!,
    C13_ductility_invariant.2 {} requestTenMetres (by decide!)⟩

/-! ## C15: the split into two rows -/

theorem le_of_eq_ceil_half {a b : ℤ} (h : a = ⌈((a + b : ℤ) : ℚ) / 2⌉) : b ≤ a := by
  have h1 : ((a + b : ℤ) : ℚ) / 2 ≤ ((⌈((a + b : ℤ) : ℚ) / 2⌉ : ℤ) : ℚ) := Int.le_ceil _
  rw [← h] at h1
  have h2 : (b : ℚ) ≤ (a : ℚ) := by push_cast at h1; linarith
  exact_mod_cast h2

/-- C15. For every candidate of the flexural stage with `rebarRows = 2`, with
`total = rebarCountRow1 + rebarCountRow2` (which is the bar count `totalBars`
of the stage): `rebarCountRow1 = ceil(total/2)`,
`rebarCountRow2 = total - rebarCountRow1` and
`rebarCountRow1 >= rebarCountRow2`; and likewise for every design with two rows
stored by a successful `runDesign`. -/
theorem C15_row_split_invariant :
    (∀ (s : RebarCalc) (d : ℚ) (t : RebarDesign) (p : BridgeParams),
      s.flexuralStage d = some (t, p) → t.rebarRows = 2 →
        t.rebarCountRow1 + t.rebarCountRow2
          = s.totalBarsFor { s.params with h0 := s.params.height - 30 - 8 - d / 2 } d
        ∧ t.rebarCountRow1 = ⌈((t.rebarCountRow1 + t.rebarCountRow2 : ℤ) : ℚ) / 2⌉
        ∧ t.rebarCountRow2 = (t.rebarCountRow1 + t.rebarCountRow2) - t.rebarCountRow1
        ∧ t.rebarCountRow1 ≥ t.rebarCountRow2)
    ∧ (∀ (self : RebarCalc) (r : DesignRequest), (self.runDesign r).1 = true →
        (self.runDesign r).2.design.rebarRows = 2 →
        (self.runDesign r).2.design.rebarCountRow1
          = ⌈(((self.runDesign r).2.design.rebarCountRow1
                + (self.runDesign r).2.design.rebarCountRow2 : ℤ) : ℚ) / 2⌉
        ∧ (self.runDesign r).2.design.rebarCountRow2
          = ((self.runDesign r).2.design.rebarCountRow1
                + (self.runDesign r).2.design.rebarCountRow2)
              - (self.runDesign r).2.design.rebarCountRow1
        ∧ (self.runDesign r).2.design.rebarCountRow1
          ≥ (self.runDesign r).2.design.rebarCountRow2) := by
  constructor
  · intro s d t p h hr
    obtain ⟨-, -, l3, l4, -⟩ := flexuralStage_layout h
    exact ⟨l3, l4 hr, by ring, le_of_eq_ceil_half (l4 hr)⟩
  · intro self r h hr
    obtain ⟨s, d, t0, p, -, -, -, -, -, hf, hD, -, -⟩ := runDesign_stored_provenance self r h
    obtain ⟨-, -, -, l4, -⟩ := flexuralStage_layout hf
    obtain ⟨-, q2, q3, q4⟩ := priced_layout s t0 p
    rw [hD] at hr ⊢
    rw [q2] at hr
    rw [q3, q4]
    exact ⟨l4 hr, by ring, le_of_eq_ceil_half (l4 hr)⟩

/-- Witness of C15: diameter 16 for the 10 m girder (two rows of five), and the
stored design of the shallow girder (two rows of four). -/
theorem C15_row_split_invariant_witness :
    (RebarCalc.loadAnalysis {} requestTenMetres).flexuralStage 16
        = some (layoutSixteen, paramsSixteen)
    ∧ layoutSixteen.rebarRows = 2
    ∧ layoutSixteen.rebarCountRow1 ≥ layoutSixteen.rebarCountRow2
    ∧ (RebarCalc.runDesign {} requestShallow).1 = true
    ∧ (RebarCalc.runDesign {} requestShallow).2.design.rebarRows = 2
    ∧ (RebarCalc.runDesign {} requestShallow).2.design.rebarCountRow1
        ≥ (RebarCalc.runDesign {} requestShallow).2.design.rebarCountRow2 :=
  ⟨by decide!, by decide!,
    (C15_row_split_invariant.1 (RebarCalc.loadAnalysis {} requestTenMetres) 16 layoutSixteen
      paramsSixteen (by decide!) (by decide!)).2.2.2,
    by decide!, by decide!,
    (C15_row_split_invariant.2 {} requestShallow (by decide!) (by decide!)).2.2⟩

/-! ## C20: the packing of the rows -/

/-- A row of at most `calculateMaxBarsPerRow` bars fits the clear width with the
minimum clear spacing `max(25, d)` between the bars. -/
theorem row_fits_of_le_maxBars {n : ℤ} {d : ℚ} {p : BridgeParams} (hd : 14 ≤ d)
    (hm : calculateMaxBarsPerRow d p ≠ 0) (hn : n ≤ calculateMaxBarsPerRow d p) :
    (n : ℚ) * d + ((n : ℚ) - 1) * max 25 d ≤ p.width - 2 * 30 - 2 * 8 := by
  have e1 : p.width - 2 * CONCRETE_COVER - 2 * 8.0 = p.width - 2 * 30 - 2 * 8 := by
    simp only [CONCRETE_COVER]; norm_num
  have e2 : (25.0 : ℚ) = 25 := by norm_num
  simp only [calculateMaxBarsPerRow, e1, e2] at hm hn
  have hs : (25 : ℚ) ≤ max 25 d := le_max_left _ _
  have hpos : 0 < d + max 25 d := by linarith
  split_ifs at hm hn with hlt
  · exact absurd rfl hm
  · have h1 : n - 1 ≤ ⌊(p.width - 2 * 30 - 2 * 8 - d) / (d + max 25 d)⌋ := by omega
    have h2 : ((n - 1 : ℤ) : ℚ) ≤ (p.width - 2 * 30 - 2 * 8 - d) / (d + max 25 d) :=
      Int.le_floor.1 h1
    rw [le_div_iff₀ hpos] at h2
    push_cast at h2
    nlinarith

/-- C20. In every design stored by a successful `runDesign`, with diameter `d`,
each row fits the clear width with the minimum clear spacing:
`n*d + (n - 1)*max(25, d) <= width - 2*30 - 2*8` for `n = rebarCountRow1` and for
`n = rebarCountRow2` (with one row as well as with two), each row count being at
most `calculateMaxBarsPerRow(d)`, which is 0 when the clear width is below `d`
and `1 + floor((clear - d)/(d + max(25, d)))` otherwise. -/
theorem C20_bar_packing (self : RebarCalc) (r : DesignRequest)
    (h : (self.runDesign r).1 = true) :
    ((self.runDesign r).2.design.rebarCountRow1 : ℚ)
          * (self.runDesign r).2.design.flexureRebarDiameter
        + (((self.runDesign r).2.design.rebarCountRow1 : ℚ) - 1)
          * max 25 (self.runDesign r).2.design.flexureRebarDiameter
      ≤ r.width - 2 * 30 - 2 * 8
    ∧ ((self.runDesign r).2.design.rebarCountRow2 : ℚ)
          * (self.runDesign r).2.design.flexureRebarDiameter
        + (((self.runDesign r).2.design.rebarCountRow2 : ℚ) - 1)
          * max 25 (self.runDesign r).2.design.flexureRebarDiameter
      ≤ r.width - 2 * 30 - 2 * 8
    ∧ (self.runDesign r).2.design.rebarCountRow1
      ≤ calculateMaxBarsPerRow (self.runDesign r).2.design.flexureRebarDiameter
          (self.runDesign r).2.params
    ∧ (self.runDesign r).2.design.rebarCountRow2
      ≤ calculateMaxBarsPerRow (self.runDesign r).2.design.flexureRebarDiameter
          (self.runDesign r).2.params
    ∧ calculateMaxBarsPerRow (self.runDesign r).2.design.flexureRebarDiameter
          (self.runDesign r).2.params
      = (if r.width - 2 * 30 - 2 * 8 < (self.runDesign r).2.design.flexureRebarDiameter then 0
          else 1 + ⌊(r.width - 2 * 30 - 2 * 8 - (self.runDesign r).2.design.flexureRebarDiameter)
            / ((self.runDesign r).2.design.flexureRebarDiameter
                + max 25 (self.runDesign r).2.design.flexureRebarDiameter)⌋) := by
  obtain ⟨s, d, t0, p, hd, hw, -, -, -, hf, hD, -, hW⟩ := runDesign_stored_provenance self r h
  obtain ⟨l1, -, -, -, l5, l6, l7, -⟩ := flexuralStage_layout hf
  obtain ⟨q1, -, q3, q4⟩ := priced_layout s t0 p
  have hd14 := standardDiameters_ge hd
  -- `calculateMaxBarsPerRow` reads the width only
  have hmax : ∀ (p1 p2 : BridgeParams), p1.width = p2.width →
      calculateMaxBarsPerRow d p1 = calculateMaxBarsPerRow d p2 := by
    intro p1 p2 hp
    simp only [calculateMaxBarsPerRow, hp]
  have hm1 : calculateMaxBarsPerRow d
      { s.params with h0 := s.params.height - 30 - 8 - d / 2 }
      = calculateMaxBarsPerRow d (self.runDesign r).2.params :=
    hmax _ _ (by rw [hW]; exact hw)
  rw [hm1] at l5 l6 l7
  rw [hD, q1, q3, q4, l1]
  have hwr : r.width = (self.runDesign r).2.params.width := hW.symm
  refine ⟨?_, ?_, l5, l6, ?_⟩
  · rw [hwr]; exact row_fits_of_le_maxBars hd14 l7 l5
  · rw [hwr]; exact row_fits_of_le_maxBars hd14 l7 l6
  · simp only [calculateMaxBarsPerRow, hW, CONCRETE_COVER]
    norm_num

/-- Witness of C20 at the 10 m girder. -/
theorem C20_bar_packing_witness :
    (RebarCalc.runDesign {} requestTenMetres).1 = true
    ∧ ((RebarCalc.runDesign {} requestTenMetres).2.design.rebarCountRow1 : ℚ)
          * (RebarCalc.runDesign {} requestTenMetres).2.design.flexureRebarDiameter
        + (((RebarCalc.runDesign {} requestTenMetres).2.design.rebarCountRow1 : ℚ) - 1)
          * max 25 (RebarCalc.runDesign {} requestTenMetres).2.design.flexureRebarDiameter
      ≤ requestTenMetres.width - 2 * 30 - 2 * 8 :=
  ⟨by decide!, (C20_bar_packing {} requestTenMetres (by decide!)).1⟩

/-! ## C18: the cost breakdown -/

theorem designShearForIteration_fields (self : RebarCalc) (t : RebarDesign) (p : BridgeParams) :
    (self.designShearForIteration t p).stirrupDiameter = 8
    ∧ (self.designShearForIteration t p).stirrupLegs = 2
    ∧ 0 ≤ (self.designShearForIteration t p).bentRebarCount := by
  simp only [RebarCalc.designShearForIteration]
  split_ifs <;> simp

/-- The cost of a design with non-negative counts, a diameter of at least 14 and
8 mm stirrups, for positive span, width and height. -/
theorem calculateTotalCostForIteration_nonneg (u : RebarDesign) (p : BridgeParams)
    (hs : 0 < p.span) (hw : 0 < p.width) (hh : 0 < p.height)
    (hb : 0 ≤ u.rebarCountRow1 + u.rebarCountRow2) (hc : 0 ≤ u.bentRebarCount)
    (hl : 0 ≤ u.stirrupLegs) (hd : 14 ≤ u.flexureRebarDiameter) (h8 : u.stirrupDiameter = 8) :
    0 ≤ (calculateTotalCostForIteration u p).concreteCost
    ∧ 0 ≤ (calculateTotalCostForIteration u p).steelCost
    ∧ 0 ≤ (calculateTotalCostForIteration u p).laborCost
    ∧ (calculateTotalCostForIteration u p).totalCost
        = (calculateTotalCostForIteration u p).concreteCost
          + (calculateTotalCostForIteration u p).steelCost
          + (calculateTotalCostForIteration u p).laborCost := by
  have hng : (0 : ℚ) < (if p.girderSpacing > 0 then
      (if 10000.0 / p.girderSpacing < 2 then 2 else 10000.0 / p.girderSpacing) else 1) := by
    split_ifs with h1 h2
    · norm_num
    · linarith [not_lt.1 h2]
    · norm_num
  have hex : (0 : ℚ) ≤ (if u.bentRebarsUsed then (u.bentRebarCount : ℚ) * (p.height * 0.5)
      else 0) := by
    split_ifs
    · have : (0 : ℚ) ≤ (u.bentRebarCount : ℚ) := by exact_mod_cast hc
      positivity
    · exact le_refl 0
  have hns : (0 : ℚ) ≤ (if u.stirrupSpacing > 0 then p.span / u.stirrupSpacing else 0) := by
    split_ifs with h1
    · exact le_of_lt (div_pos hs h1)
    · exact le_refl 0
  have hbars : (0 : ℚ) ≤ ((u.rebarCountRow1 + u.rebarCountRow2 : ℤ) : ℚ) := by exact_mod_cast hb
  have hlegs : (0 : ℚ) ≤ (u.stirrupLegs : ℚ) := by exact_mod_cast hl
  have hpi : (0 : ℚ) < M_PI := by norm_num [M_PI]
  have hden : (0 : ℚ) < STEEL_DENSITY := by norm_num [STEEL_DENSITY]
  have hff : (0 : ℚ) ≤ 1.0 + (u.flexureRebarDiameter - 14.0) * 0.025 := by
    norm_num; linarith
  have hfs : (0 : ℚ) ≤ 1.0 + (u.stirrupDiameter - 14.0) * 0.025 := by
    rw [h8]; norm_num
  simp only [calculateTotalCostForIteration]
  generalize (if p.girderSpacing > 0 then
      (if 10000.0 / p.girderSpacing < 2 then 2 else 10000.0 / p.girderSpacing) else 1 : ℚ)
    = ng at hng ⊢
  generalize (if u.bentRebarsUsed then (u.bentRebarCount : ℚ) * (p.height * 0.5) else 0 : ℚ)
    = ex at hex ⊢
  generalize (if u.stirrupSpacing > 0 then p.span / u.stirrupSpacing else 0 : ℚ) = ns at hns ⊢
  generalize (1.0 + (u.flexureRebarDiameter - 14.0) * 0.025 : ℚ) = ff at hff ⊢
  generalize (1.0 + (u.stirrupDiameter - 14.0) * 0.025 : ℚ) = fs at hfs ⊢
  generalize ((u.rebarCountRow1 + u.rebarCountRow2 : ℤ) : ℚ) = nb at hbars ⊢
  generalize (u.stirrupLegs : ℚ) = lg at hlegs ⊢
  refine ⟨?_, ?_, ?_, trivial⟩
  · positivity
  · positivity
  · positivity

/-- C18. For every candidate of a standard diameter that passes the flexural
stage and is priced by `calculateTotalCostForIteration`, on an engine with
strictly positive span, width and height (girderSpacing may be anything),
`concreteCost`, `steelCost` and `laborCost` are non-negative and
`totalCost = concreteCost + steelCost + laborCost`. -/
theorem C18_cost_breakdown (s : RebarCalc) (d : ℚ) (t : RebarDesign) (p : BridgeParams)
    (hd : d ∈ standardDiameters) (hs : 0 < s.params.span) (hw : 0 < s.params.width)
    (hh : 0 < s.params.height) (h : s.evaluateCandidate d = some (t, p)) :
    0 ≤ t.concreteCost ∧ 0 ≤ t.steelCost ∧ 0 ≤ t.laborCost
    ∧ t.totalCost = t.concreteCost + t.steelCost + t.laborCost := by
  obtain ⟨t0, hf, rfl⟩ := evaluateCandidate_spec h
  obtain ⟨-, -, ha, -⟩ := flexuralStage_spec hf
  obtain ⟨-, -, -, -, -, a6, a7, a8, -⟩ := arrangeRows_frame ha
  obtain ⟨l1, -, l3, -⟩ := flexuralStage_layout hf
  obtain ⟨-, -, -, -, f5, -, f7, f8⟩ := designShearForIteration_frame s t0 p
  obtain ⟨g1, g2, g3⟩ := designShearForIteration_fields s t0 p
  have hn := totalBarsFor_ge_two s { s.params with h0 := s.params.height - 30 - 8 - d / 2 } d
  apply calculateTotalCostForIteration_nonneg
  · rw [a6]; exact hs
  · rw [a7]; exact hw
  · rw [a8]; exact hh
  · rw [f7, f8, l3]; omega
  · exact g3
  · rw [g2]; norm_num
  · rw [f5, l1]; exact standardDiameters_ge hd
  · exact g1

/-- Witness of C18: the priced candidate of diameter 16 for the 10 m girder. -/
theorem C18_cost_breakdown_witness :
    (16 : ℚ) ∈ standardDiameters
    ∧ 0 < (RebarCalc.loadAnalysis {} requestTenMetres).params.span
    ∧ 0 < (RebarCalc.loadAnalysis {} requestTenMetres).params.width
    ∧ 0 < (RebarCalc.loadAnalysis {} requestTenMetres).params.height
    ∧ (RebarCalc.loadAnalysis {} requestTenMetres).evaluateCandidate 16
        = some (candidateSixteen, paramsSixteen)
    ∧ 0 ≤ candidateSixteen.concreteCost ∧ 0 ≤ candidateSixteen.steelCost
    ∧ 0 ≤ candidateSixteen.laborCost
    ∧ candidateSixteen.totalCost
        = candidateSixteen.concreteCost + candidateSixteen.steelCost
          + candidateSixteen.laborCost :=
  ⟨by decide!, by decide!, by decide!, by decide!, by decide!,
    C18_cost_breakdown (RebarCalc.loadAnalysis {} requestTenMetres) 16 candidateSixteen
      paramsSixteen (by decide!) (by decide!) (by decide!) (by decide!) (by decide!)⟩

/-! ## C17: the tie-break -/

/-- C17. The diameters are tried in the ascending order 14, 16, 18, 20, 22, 25,
28; an iteration changes the loop state only when its candidate is priced
strictly below `bestCost`; and after a successful `runDesign` the stored design
is one of the candidates that the loop priced, at most as expensive as each of
them and, among those that attain its `totalCost`, the one with the smallest
diameter. -/
theorem C17_tie_break (self : RebarCalc) (r : DesignRequest)
    (h : (self.runDesign r).1 = true) :
    standardDiameters = [14, 16, 18, 20, 22, 25, 28]
    ∧ (∀ (st : SearchState) (d : ℚ), searchStep st d ≠ st →
        ∃ t p, st.self.evaluateCandidate d = some (t, p) ∧ t.totalCost < st.bestCost
          ∧ (searchStep st d).self.design = t)
    ∧ (∃ c ∈ evaluatedCandidates (SearchState.init (self.loadAnalysis r)) standardDiameters,
        (self.runDesign r).2.design = c.1)
    ∧ ∀ c ∈ evaluatedCandidates (SearchState.init (self.loadAnalysis r)) standardDiameters,
        (self.runDesign r).2.design.totalCost ≤ c.1.totalCost
        ∧ (c.1.totalCost = (self.runDesign r).2.design.totalCost →
            (self.runDesign r).2.design.flexureRebarDiameter ≤ c.1.flexureRebarDiameter) := by
  obtain ⟨c, hc, h1, -, h3⟩ := runDesign_stored_best self r h
  refine ⟨rfl, ?_, ⟨c, hc, h1⟩, ?_⟩
  · intro st d hne
    rcases searchStep_cases st d with h2 | ⟨t, p, he, hlt, h2⟩
    · exact absurd h2 hne
    · exact ⟨t, p, he, hlt, by rw [h2]⟩
  · intro c' hc'
    rw [h1]
    exact h3 c' hc'

/-- Witness of C17 at the 10 m girder: the stored design is among the priced
candidates. -/
theorem C17_tie_break_witness :
    (RebarCalc.runDesign {} requestTenMetres).1 = true
    ∧ ∃ c ∈ evaluatedCandidates (SearchState.init (RebarCalc.loadAnalysis {} requestTenMetres))
          standardDiameters,
        (RebarCalc.runDesign {} requestTenMetres).2.design = c.1 :=
  ⟨by decide!, (C17_tie_break {} requestTenMetres (by decide!)).2.2.1⟩

/-! ## C21: the palette lookup of the renderer -/

theorem rebarColorAt_isSome {d : ℚ} (h : d ∈ standardDiameters) :
    (rebarColorAt d).isSome = true := by
  simp only [standardDiameters, List.mem_cons, List.mem_singleton, List.not_mem_nil,
    or_false] at h
  rcases h with rfl | rfl | rfl | rfl | rfl | rfl | rfl <;> decide!

/-- C21. After every successful `runDesign`, `flexureRebarDiameter` of the
stored design is one of 14, 16, 18, 20, 22, 25, 28, `designPossible` is true and
the palette has that key; and after every `runDesign`, successful or not, the
renderer's lookup `rebarColorMap.at(flexureRebarDiameter)`, reached only when
`designPossible` is true, does not throw. -/
theorem C21_palette_lookup (self : RebarCalc) (r : DesignRequest) :
    ((self.runDesign r).1 = true →
      (self.runDesign r).2.design.flexureRebarDiameter ∈ ([14, 16, 18, 20, 22, 25, 28] : List ℚ)
      ∧ (self.runDesign r).2.design.designPossible = true
      ∧ (rebarColorAt (self.runDesign r).2.design.flexureRebarDiameter).isSome = true)
    ∧ (self.runDesign r).2.paletteLookupThrows = false := by
  have hflag := (runDesign_flag_message self r).1
  have hsucc : (self.runDesign r).1 = true →
      (self.runDesign r).2.design.flexureRebarDiameter ∈ standardDiameters
      ∧ (rebarColorAt (self.runDesign r).2.design.flexureRebarDiameter).isSome = true := by
    intro h
    obtain ⟨s, d, t0, p, hd, -, -, -, -, hf, hD, -, -⟩ := runDesign_stored_provenance self r h
    obtain ⟨l1, -⟩ := flexuralStage_layout hf
    obtain ⟨q1, -⟩ := priced_layout s t0 p
    have hdiam : (self.runDesign r).2.design.flexureRebarDiameter = d := by rw [hD, q1, l1]
    rw [hdiam]
    exact ⟨hd, rebarColorAt_isSome hd⟩
  constructor
  · intro h
    exact ⟨(hsucc h).1, by rw [← hflag]; exact h, (hsucc h).2⟩
  · simp only [RebarCalc.paletteLookupThrows, ← hflag]
    cases h : (self.runDesign r).1 with
    | false => rfl
    | true =>
      have h2 := (hsucc h).2
      cases hc : rebarColorAt (self.runDesign r).2.design.flexureRebarDiameter with
      | none => rw [hc] at h2; exact absurd h2 (by simp)
      | some c => rfl

/-- Witness of C21 at the 10 m girder. -/
theorem C21_palette_lookup_witness :
    (RebarCalc.runDesign {} requestTenMetres).1 = true
    ∧ (RebarCalc.runDesign {} requestTenMetres).2.design.flexureRebarDiameter
        ∈ ([14, 16, 18, 20, 22, 25, 28] : List ℚ)
    ∧ (RebarCalc.runDesign {} requestTenMetres).2.paletteLookupThrows = false :=
  ⟨by decide!, ((C21_palette_lookup {} requestTenMetres).1 (by decide!)).1,
    (C21_palette_lookup {} requestTenMetres).2⟩

/-! ## C22: the sign of the effective depth -/

/-- C22, evaluated at the shallow girder: diameter 14 passes the flexural stage
under the governing moment with two rows of four bars and the recomputed
`h0 = -5/2`, which is not positive; its `xi` is negative; it is handed to the
shear and cost stages, accepted, and `runDesign` stores it with
`params.h0 = -5/2`. -/
theorem C22_negative_effective_depth_passes :
    (RebarCalc.loadAnalysis {} requestShallow).flexuralStage 14
        = some (layoutShallow, paramsShallow)
    ∧ paramsShallow.h0 = -5 / 2
    ∧ ductilityRatio (layoutShallow.rebarCountRow1 + layoutShallow.rebarCountRow2) 14
        paramsShallow.width paramsShallow.h0 < 0
    ∧ ((RebarCalc.loadAnalysis {} requestShallow).evaluateCandidate 14).isSome = true
    ∧ (RebarCalc.runDesign {} requestShallow).1 = true
    ∧ (storedDesign requestShallow).flexureRebarDiameter = 14
    ∧ (RebarCalc.runDesign {} requestShallow).2.params.h0 = -5 / 2 := by
  refine ⟨?_, ?_, ?_, ?_, ?_, ?_, ?_⟩ <;> decide!

/-! ## C24: the effective depth of a two-row layout -/

/-- The centroid of two layers of `a` and `b` bars, `1 <= b <= a`, the second
layer `g > 0` above the first, lies strictly above the first layer and at most
`g/2` above it. -/
theorem centroid_bounds {a b A y g : ℚ} (hA : 0 < A) (hg : 0 < g) (hb : 0 < b) (hab : b ≤ a) :
    y < (a * A * y + b * A * (y + g)) / (a * A + b * A)
    ∧ (a * A * y + b * A * (y + g)) / (a * A + b * A) ≤ y + g / 2 := by
  have ha : 0 < a := lt_of_lt_of_le hb hab
  have hden : 0 < a * A + b * A := by positivity
  constructor
  · rw [lt_div_iff₀ hden]
    have : 0 < b * A * g := by positivity
    nlinarith
  · rw [div_le_iff₀ hden]
    have : 0 ≤ (a - b) * A * g := by
      have : 0 ≤ a - b := by linarith
      positivity
    nlinarith

/-- The two-row depth in exact arithmetic.  For every two-row candidate of a
standard diameter `d` that the flexural stage of the rational model hands on,
the recomputed effective depth is
`h0 = height - (As1*y1 + As2*y2)/(As1 + As2)` with `y1 = 30 + 8 + d/2`,
`y2 = y1 + d + 25`, and it satisfies `h1 - (d + 25)/2 <= h0 < h1` for the
single-row depth `h1 = height - 30 - 8 - d/2`. -/
theorem twoRowDepth_exact_bounds (s : RebarCalc) (d : ℚ) (t : RebarDesign) (p : BridgeParams)
    (hd : d ∈ standardDiameters) (h : s.flexuralStage d = some (t, p))
    (hr : t.rebarRows = 2) :
    p.h0 = s.params.height
        - (((t.rebarCountRow1 : ℚ) * (M_PI * (d / 2) ^ 2) * (30 + 8 + d / 2)
            + (t.rebarCountRow2 : ℚ) * (M_PI * (d / 2) ^ 2) * (30 + 8 + d / 2 + d + 25))
          / ((t.rebarCountRow1 : ℚ) * (M_PI * (d / 2) ^ 2)
            + (t.rebarCountRow2 : ℚ) * (M_PI * (d / 2) ^ 2)))
    ∧ (s.params.height - 30 - 8 - d / 2) - (d + 25) / 2 ≤ p.h0
    ∧ p.h0 < s.params.height - 30 - 8 - d / 2 := by
  obtain ⟨-, -, ha, -⟩ := flexuralStage_spec h
  have hn := totalBarsFor_ge_two s { s.params with h0 := s.params.height - 30 - 8 - d / 2 } d
  have hd14 := standardDiameters_ge hd
  rcases arrangeRows_spec ha with ⟨-, h2, -⟩ | ⟨-, -, h3, h4, -, -, h7⟩
  · rw [h2] at hr; exact absurd hr (by norm_num)
  · generalize s.totalBarsFor { s.params with h0 := s.params.height - 30 - 8 - d / 2 } d = n
      at hn h3 h4 h7
    have hn2 : (2 : ℚ) ≤ (n : ℚ) := by exact_mod_cast hn
    have hc1 : (n : ℚ) / 2 ≤ ((⌈(n : ℚ) / 2⌉ : ℤ) : ℚ) := Int.le_ceil _
    have hc2 : ((⌈(n : ℚ) / 2⌉ : ℤ) : ℚ) < (n : ℚ) / 2 + 1 := Int.ceil_lt_add_one _
    have hA : (0 : ℚ) < M_PI * (d / 2) ^ 2 := by
      have : (0 : ℚ) < M_PI := by norm_num [M_PI]
      have : (0 : ℚ) < d := by linarith
      positivity
    have hg : (0 : ℚ) < d + 25 := by linarith
    have hbpos : (0 : ℚ) < ((n - ⌈(n : ℚ) / 2⌉ : ℤ) : ℚ) := by push_cast; linarith
    have hab : ((n - ⌈(n : ℚ) / 2⌉ : ℤ) : ℚ) ≤ ((⌈(n : ℚ) / 2⌉ : ℤ) : ℚ) := by
      push_cast; linarith
    have hb := centroid_bounds (y := 30 + 8 + d / 2) hA hg hbpos hab
    have hy : (30 : ℚ) + 8 + d / 2 + d + 25 = 30 + 8 + d / 2 + (d + 25) := by ring
    rw [h3, h4, hy]
    have hh0 : p.h0 = s.params.height
        - ((((⌈(n : ℚ) / 2⌉ : ℤ) : ℚ) * (M_PI * (d / 2) ^ 2) * (30 + 8 + d / 2)
            + ((n - ⌈(n : ℚ) / 2⌉ : ℤ) : ℚ) * (M_PI * (d / 2) ^ 2) * (30 + 8 + d / 2 + (d + 25)))
          / (((⌈(n : ℚ) / 2⌉ : ℤ) : ℚ) * (M_PI * (d / 2) ^ 2)
            + ((n - ⌈(n : ℚ) / 2⌉ : ℤ) : ℚ) * (M_PI * (d / 2) ^ 2))) := by
      rw [h7, hy]
    refine ⟨hh0, ?_, ?_⟩
    · rw [hh0]; linarith [hb.2]
    · rw [hh0]; linarith [hb.1]

/-- The exact bounds at diameter 16 for the 10 m girder, two rows of five. -/
theorem twoRowDepth_exact_bounds_sixteen :
    (16 : ℚ) ∈ standardDiameters
    ∧ (RebarCalc.loadAnalysis {} requestTenMetres).flexuralStage 16
        = some (layoutSixteen, paramsSixteen)
    ∧ layoutSixteen.rebarRows = 2
    ∧ ((RebarCalc.loadAnalysis {} requestTenMetres).params.height - 30 - 8 - 16 / 2)
        - (16 + 25) / 2 ≤ paramsSixteen.h0
    ∧ paramsSixteen.h0
        < (RebarCalc.loadAnalysis {} requestTenMetres).params.height - 30 - 8 - 16 / 2 :=
  ⟨by decide!, by decide!, by decide!,
    (twoRowDepth_exact_bounds (RebarCalc.loadAnalysis {} requestTenMetres) 16 layoutSixteen
      paramsSixteen (by decide!) (by decide!) (by decide!)).2⟩

/-! ### The rounding of `double` -/

/-- With enough fuel `leadingBit` is the position of the leading bit. -/
theorem leadingBit_spec (fuel n : ℕ) (h1 : 1 ≤ n) (h2 : n ≤ fuel) :
    2 ^ leadingBit fuel n ≤ n ∧ n < 2 ^ (leadingBit fuel n + 1) := by
  induction fuel generalizing n with
  | zero => omega
  | succ k ih =>
    unfold leadingBit
    split_ifs with h
    · constructor <;> simp <;> omega
    · have := ih (n / 2) (by omega) (by omega)
      obtain ⟨ha, hb⟩ := this
      rw [pow_succ] at hb
      constructor
      · rw [pow_succ]; omega
      · rw [pow_succ, pow_succ]; omega

/-- Rounding to the nearest integer moves a number by at most one half. -/
theorem roundHalfEven_error (m : ℚ) : |(roundHalfEven m : ℚ) - m| ≤ 1 / 2 := by
  have h1 := Int.floor_le m
  have h2 := Int.lt_floor_add_one m
  unfold roundHalfEven
  split_ifs <;> rw [abs_le] <;> constructor <;> push_cast <;> linarith

/-- The power of two of the binary exponent is at most `|x|`. -/
theorem binaryExponent_le (x : ℚ) (hx : x ≠ 0) : (2 : ℚ) ^ binaryExponent x ≤ |x| := by
  unfold binaryExponent
  split_ifs with h
  · exact h
  · have hn : 1 ≤ x.num.natAbs := by
      have : x.num ≠ 0 := Rat.num_ne_zero.mpr hx
      omega
    have hd : 1 ≤ x.den := x.den_pos
    obtain ⟨ha, -⟩ := leadingBit_spec x.num.natAbs x.num.natAbs hn le_rfl
    obtain ⟨-, hb⟩ := leadingBit_spec x.den x.den hd le_rfl
    have hax : |x| = (x.num.natAbs : ℚ) / (x.den : ℚ) := by
      conv_lhs => rw [← Rat.num_div_den x]
      rw [abs_div, Nat.cast_natAbs, Int.cast_abs]
      simp
    rw [hax]
    have e : ((leadingBit x.num.natAbs x.num.natAbs : ℤ) - (leadingBit x.den x.den : ℤ) - 1)
        = (leadingBit x.num.natAbs x.num.natAbs : ℤ)
          - ((leadingBit x.den x.den + 1 : ℕ) : ℤ) := by
      push_cast; ring
    rw [e, zpow_sub₀ (by norm_num), zpow_natCast, zpow_natCast]
    have ha2 : ((2 : ℚ) ^ leadingBit x.num.natAbs x.num.natAbs) ≤ (x.num.natAbs : ℚ) := by
      exact_mod_cast ha
    have hb2 : (x.den : ℚ) ≤ (2 : ℚ) ^ (leadingBit x.den x.den + 1) := by
      exact_mod_cast hb.le
    have hdq : (0 : ℚ) < x.den := by exact_mod_cast hd
    exact div_le_div₀ (by positivity) ha2 hdq hb2

/-- Rounding to the nearest `double` has a relative error of at most `2^-53`. -/
theorem roundDouble_error : RoundsLikeDouble roundDouble := by
  intro x
  unfold roundDouble
  split_ifs with hx
  · simp [hx]
  · have hs : (0 : ℚ) < (2 : ℚ) ^ (binaryExponent x - 52) := by positivity
    have hr := roundHalfEven_error (x / (2 : ℚ) ^ (binaryExponent x - 52))
    have he := binaryExponent_le x hx
    have e1 : (roundHalfEven (x / (2 : ℚ) ^ (binaryExponent x - 52)) : ℚ)
          * (2 : ℚ) ^ (binaryExponent x - 52) - x
        = ((roundHalfEven (x / (2 : ℚ) ^ (binaryExponent x - 52)) : ℚ)
            - x / (2 : ℚ) ^ (binaryExponent x - 52))
          * (2 : ℚ) ^ (binaryExponent x - 52) := by
      field_simp
    rw [e1, abs_mul, abs_of_pos hs]
    have e2 : (2 : ℚ) ^ (binaryExponent x - 52) = (2 : ℚ) ^ binaryExponent x / 2 ^ 52 := by
      rw [zpow_sub₀ (by norm_num)]; norm_num
    calc |(roundHalfEven (x / (2 : ℚ) ^ (binaryExponent x - 52)) : ℚ)
            - x / (2 : ℚ) ^ (binaryExponent x - 52)|
          * (2 : ℚ) ^ (binaryExponent x - 52)
        ≤ 1 / 2 * (2 : ℚ) ^ (binaryExponent x - 52) := by
          exact mul_le_mul_of_nonneg_right hr hs.le
      _ = unitRoundoff * (2 : ℚ) ^ binaryExponent x := by
          rw [e2, unitRoundoff]; ring
      _ ≤ unitRoundoff * |x| := by
          exact mul_le_mul_of_nonneg_left he (by norm_num [unitRoundoff])

/-- Exact arithmetic is a rounding with no error. -/
theorem RoundsLikeDouble_id : RoundsLikeDouble id := by
  intro x
  have : (0 : ℚ) ≤ unitRoundoff := by norm_num [unitRoundoff]
  simpa using mul_nonneg this (abs_nonneg x)

/-! ### Error propagation through non-negative quantities -/

theorem unitRoundoff_q : (0 : ℚ) < 1 - unitRoundoff ∧ 1 - unitRoundoff ≤ 1 := by
  norm_num [unitRoundoff]

theorem unitRoundoff_r : (1 : ℚ) ≤ 1 + unitRoundoff := by
  norm_num [unitRoundoff]

theorem unitRoundoff_factors :
    1 - 11 * unitRoundoff
        ≤ (1 - unitRoundoff) ^ 7 / (1 + unitRoundoff) ^ 2 * (1 - unitRoundoff)
    ∧ (1 + unitRoundoff) ^ 7 / (1 - unitRoundoff) ^ 2 * (1 + unitRoundoff)
        ≤ 1 + 11 * unitRoundoff := by
  norm_num [unitRoundoff]

theorem Near.exact (X : ℚ) : Near 0 X X := by
  simp [Near]

theorem Near.mono {k l : ℕ} {x X : ℚ} (hX : 0 ≤ X) (hkl : k ≤ l) (h : Near k x X) :
    Near l x X := by
  obtain ⟨h1, h2⟩ := h
  have hq := unitRoundoff_q
  have a1 : (1 - unitRoundoff) ^ l ≤ (1 - unitRoundoff) ^ k :=
    pow_le_pow_of_le_one hq.1.le hq.2 hkl
  have a2 : (1 + unitRoundoff) ^ k ≤ (1 + unitRoundoff) ^ l :=
    pow_le_pow_right₀ unitRoundoff_r hkl
  exact ⟨le_trans (mul_le_mul_of_nonneg_left a1 hX) h1,
    le_trans h2 (mul_le_mul_of_nonneg_left a2 hX)⟩

theorem Near.nonneg {k : ℕ} {x X : ℚ} (hX : 0 ≤ X) (h : Near k x X) : 0 ≤ x := by
  have hq := unitRoundoff_q
  have : 0 ≤ (1 - unitRoundoff) ^ k := pow_nonneg hq.1.le k
  exact le_trans (mul_nonneg hX this) h.1

theorem Near.pos {k : ℕ} {x X : ℚ} (hX : 0 < X) (h : Near k x X) : 0 < x := by
  have hq := unitRoundoff_q
  have : 0 < (1 - unitRoundoff) ^ k := pow_pos hq.1 k
  exact lt_of_lt_of_le (mul_pos hX this) h.1

/-- One more rounding. -/
theorem Near.round {fl : ℚ → ℚ} (hfl : RoundsLikeDouble fl) {k : ℕ} {x X : ℚ} (hX : 0 ≤ X)
    (h : Near k x X) : Near (k + 1) (fl x) X := by
  have hx := h.nonneg hX
  have hq := unitRoundoff_q
  have hr := unitRoundoff_r
  have hb := abs_le.mp (hfl x)
  rw [abs_of_nonneg hx] at hb
  obtain ⟨h1, h2⟩ := h
  constructor
  · calc X * (1 - unitRoundoff) ^ (k + 1)
        = (X * (1 - unitRoundoff) ^ k) * (1 - unitRoundoff) := by ring
      _ ≤ x * (1 - unitRoundoff) := mul_le_mul_of_nonneg_right h1 hq.1.le
      _ ≤ fl x := by linarith [hb.1]
  · calc fl x ≤ x * (1 + unitRoundoff) := by linarith [hb.2]
      _ ≤ (X * (1 + unitRoundoff) ^ k) * (1 + unitRoundoff) :=
          mul_le_mul_of_nonneg_right h2 (by linarith)
      _ = X * (1 + unitRoundoff) ^ (k + 1) := by ring

theorem Near.add {k : ℕ} {x X y Y : ℚ} (h1 : Near k x X) (h2 : Near k y Y) :
    Near k (x + y) (X + Y) := by
  obtain ⟨a1, a2⟩ := h1
  obtain ⟨b1, b2⟩ := h2
  constructor
  · rw [add_mul]; linarith
  · rw [add_mul]; linarith

theorem Near.mul {k l : ℕ} {x X y Y : ℚ} (hX : 0 ≤ X) (hY : 0 ≤ Y)
    (h1 : Near k x X) (h2 : Near l y Y) : Near (k + l) (x * y) (X * Y) := by
  have hx := h1.nonneg hX
  have hy := h2.nonneg hY
  have hq := unitRoundoff_q
  have hqk : 0 ≤ (1 - unitRoundoff) ^ k := pow_nonneg hq.1.le k
  have hql : 0 ≤ (1 - unitRoundoff) ^ l := pow_nonneg hq.1.le l
  obtain ⟨a1, a2⟩ := h1
  obtain ⟨b1, b2⟩ := h2
  constructor
  · calc X * Y * (1 - unitRoundoff) ^ (k + l)
        = (X * (1 - unitRoundoff) ^ k) * (Y * (1 - unitRoundoff) ^ l) := by ring
      _ ≤ x * y := mul_le_mul a1 b1 (mul_nonneg hY hql) hx
  · calc x * y ≤ (X * (1 + unitRoundoff) ^ k) * (Y * (1 + unitRoundoff) ^ l) :=
          mul_le_mul a2 b2 hy (le_trans hx a2)
      _ = X * Y * (1 + unitRoundoff) ^ (k + l) := by ring

/-! ### The rounded centroid -/

/-- The centroid of two layers of `a` and `b` bars with `1 <= b <= a <= b + 1`,
the second layer `g > 0` above the first, lies at least `g/3` and at most `g/2`
above the first layer. -/
theorem centroid_gap {a b A y g : ℚ} (hA : 0 < A) (hg : 0 < g) (hb : 1 ≤ b) (hab : b ≤ a)
    (hab1 : a ≤ b + 1) :
    y + g / 3 ≤ (a * A * y + b * A * (y + g)) / (a * A + b * A)
    ∧ (a * A * y + b * A * (y + g)) / (a * A + b * A) ≤ y + g / 2 := by
  have hb0 : 0 < b := by linarith
  have ha : 0 < a := lt_of_lt_of_le hb0 hab
  have hden : 0 < a * A + b * A := by positivity
  constructor
  · rw [le_div_iff₀ hden]
    have : 0 ≤ (2 * b - a) * (A * g) := by
      have : 0 ≤ 2 * b - a := by linarith
      positivity
    nlinarith
  · rw [div_le_iff₀ hden]
    have : 0 ≤ (a - b) * (A * g) := by
      have : 0 ≤ a - b := by linarith
      positivity
    nlinarith

/-- The split of `n >= 2` bars into `ceil(n/2)` and the rest: the second row has
at least one bar, and at most as many as the first, which has at most one
more. -/
theorem two_row_split (n : ℤ) (hn : 2 ≤ n) :
    (1 : ℚ) ≤ ((n - ⌈(n : ℚ) / 2⌉ : ℤ) : ℚ)
    ∧ ((n - ⌈(n : ℚ) / 2⌉ : ℤ) : ℚ) ≤ ((⌈(n : ℚ) / 2⌉ : ℤ) : ℚ)
    ∧ ((⌈(n : ℚ) / 2⌉ : ℤ) : ℚ) ≤ ((n - ⌈(n : ℚ) / 2⌉ : ℤ) : ℚ) + 1 := by
  have hn2 : (2 : ℚ) ≤ (n : ℚ) := by exact_mod_cast hn
  have hc1 : (n : ℚ) / 2 ≤ ((⌈(n : ℚ) / 2⌉ : ℤ) : ℚ) := Int.le_ceil _
  have hc2 : ((⌈(n : ℚ) / 2⌉ : ℤ) : ℚ) < (n : ℚ) / 2 + 1 := Int.ceil_lt_add_one _
  have h1 : ⌈(n : ℚ) / 2⌉ < n := by
    have : ((⌈(n : ℚ) / 2⌉ : ℤ) : ℚ) < (n : ℚ) := by linarith
    exact_mod_cast this
  have h2 : 2 * ⌈(n : ℚ) / 2⌉ < n + 2 := by
    have : (2 : ℚ) * ((⌈(n : ℚ) / 2⌉ : ℤ) : ℚ) < (n : ℚ) + 2 := by linarith
    exact_mod_cast this
  refine ⟨?_, ?_, ?_⟩
  · have : (1 : ℤ) ≤ n - ⌈(n : ℚ) / 2⌉ := by omega
    exact_mod_cast this
  · push_cast; linarith
  · have : ⌈(n : ℚ) / 2⌉ ≤ n - ⌈(n : ℚ) / 2⌉ + 1 := by omega
    exact_mod_cast this

/-- The rounded area of a bar is positive. -/
theorem areaPerBarRounded_pos {fl : ℚ → ℚ} (hfl : RoundsLikeDouble fl) {d : ℚ} (hd : 0 < d) :
    0 < areaPerBarRounded fl d := by
  unfold areaPerBarRounded
  have e2 : (d / 2.0 : ℚ) = d / 2 := by norm_num
  rw [e2, pow_two]
  have hpi : (0 : ℚ) < M_PI := by norm_num [M_PI]
  have hd2 : (0 : ℚ) < d / 2 := by linarith
  have t1 : Near 1 (fl M_PI) M_PI := (Near.exact _).round hfl hpi.le
  have t2 : Near 1 (fl (d / 2)) (d / 2) := (Near.exact _).round hfl hd2.le
  have t3 : Near 3 (fl (fl (d / 2) * fl (d / 2))) (d / 2 * (d / 2)) :=
    (Near.mul hd2.le hd2.le t2 t2).round hfl (by positivity)
  have t4 : Near 5 (fl (fl M_PI * fl (fl (d / 2) * fl (d / 2)))) (M_PI * (d / 2 * (d / 2))) :=
    (Near.mul hpi.le (by positivity) t1 t3).round hfl (by positivity)
  exact t4.pos (by positivity)

/-- The rounded centroid `(As1 * y1 + As2 * y2) / (As1 + As2)` of two rows of
`a` and `b` bars, `1 <= b <= a <= b + 1`, of a positive bar area `A`: it is at
least `13 - 900 * 2^-53` and at most `(d + 25)/2 + 900 * 2^-53` above the first
layer `30 + 8 + d/2`. -/
theorem centroid_rounded {fl : ℚ → ℚ} (hfl : RoundsLikeDouble fl) {d A a b : ℚ}
    (hd1 : 14 ≤ d) (hd2 : d ≤ 28) (hA : 0 < A) (hb : 1 ≤ b) (hab : b ≤ a) (hab1 : a ≤ b + 1) :
    (30 + 8 + d / 2) + 13 - 900 * unitRoundoff
      ≤ fl (fl (fl (fl (a * A) * fl (fl (CONCRETE_COVER + 8.0) + fl (d / 2.0)))
            + fl (fl (b * A) * fl (fl (fl (fl (CONCRETE_COVER + 8.0) + fl (d / 2.0)) + d) + 25.0)))
          / fl (fl (a * A) + fl (b * A)))
    ∧ fl (fl (fl (fl (a * A) * fl (fl (CONCRETE_COVER + 8.0) + fl (d / 2.0)))
            + fl (fl (b * A) * fl (fl (fl (fl (CONCRETE_COVER + 8.0) + fl (d / 2.0)) + d) + 25.0)))
          / fl (fl (a * A) + fl (b * A)))
      ≤ (30 + 8 + d / 2) + (d + 25) / 2 + 900 * unitRoundoff := by
  have hb0 : 0 < b := by linarith
  have ha0 : 0 < a := lt_of_lt_of_le hb0 hab
  have e38 : (CONCRETE_COVER + 8.0 : ℚ) = 38 := by norm_num [CONCRETE_COVER]
  have e2 : (d / 2.0 : ℚ) = d / 2 := by norm_num
  have e25 : (25.0 : ℚ) = 25 := by norm_num
  rw [e38, e2, e25]
  -- the two layers
  have t1 : Near 1 (fl 38) 38 := (Near.exact 38).round hfl (by norm_num)
  have t2 : Near 1 (fl (d / 2)) (d / 2) := (Near.exact (d / 2)).round hfl (by linarith)
  have y1 : Near 2 (fl (fl 38 + fl (d / 2))) (38 + d / 2) :=
    (t1.add t2).round hfl (by linarith)
  have s1 : Near 3 (fl (fl (fl 38 + fl (d / 2)) + d)) (38 + d / 2 + d) :=
    (y1.add ((Near.exact d).mono (by linarith) (by norm_num))).round hfl (by linarith)
  have y2 : Near 4 (fl (fl (fl (fl 38 + fl (d / 2)) + d) + 25)) (38 + d / 2 + d + 25) :=
    (s1.add ((Near.exact 25).mono (by norm_num) (by norm_num))).round hfl (by linarith)
  -- the two areas and the two products
  have hY : (0 : ℚ) ≤ 38 + d / 2 := by linarith
  have hY2 : (0 : ℚ) ≤ 38 + d / 2 + d + 25 := by linarith
  have haA : 0 ≤ a * A := by positivity
  have hbA : 0 ≤ b * A := by positivity
  have A1 : Near 1 (fl (a * A)) (a * A) := (Near.exact _).round hfl haA
  have A2 : Near 1 (fl (b * A)) (b * A) := (Near.exact _).round hfl hbA
  have p1 : Near 4 (fl (fl (a * A) * fl (fl 38 + fl (d / 2)))) (a * A * (38 + d / 2)) :=
    (Near.mul haA hY A1 y1).round hfl (by positivity)
  have p2 : Near 6 (fl (fl (b * A) * fl (fl (fl (fl 38 + fl (d / 2)) + d) + 25)))
      (b * A * (38 + d / 2 + d + 25)) :=
    (Near.mul hbA hY2 A2 y2).round hfl (by positivity)
  -- numerator and denominator
  have hN : 0 ≤ a * A * (38 + d / 2) + b * A * (38 + d / 2 + d + 25) := by positivity
  have num : Near 7 (fl (fl (fl (a * A) * fl (fl 38 + fl (d / 2)))
      + fl (fl (b * A) * fl (fl (fl (fl 38 + fl (d / 2)) + d) + 25))))
      (a * A * (38 + d / 2) + b * A * (38 + d / 2 + d + 25)) :=
    ((p1.mono (by positivity) (by norm_num)).add p2).round hfl hN
  have hD : 0 < a * A + b * A := by positivity
  have den : Near 2 (fl (fl (a * A) + fl (b * A))) (a * A + b * A) :=
    (A1.add A2).round hfl hD.le
  have hden := den.pos hD
  have hnum := num.nonneg hN
  generalize fl (fl (fl (a * A) * fl (fl 38 + fl (d / 2)))
      + fl (fl (b * A) * fl (fl (fl (fl 38 + fl (d / 2)) + d) + 25))) = n at num hnum ⊢
  generalize fl (fl (a * A) + fl (b * A)) = m at den hden ⊢
  -- the quotient and its rounding
  have hq := unitRoundoff_q
  have hr := unitRoundoff_r
  have hquot : 0 ≤ n / m := div_nonneg hnum hden.le
  have hfq := abs_le.mp (hfl (n / m))
  rw [abs_of_nonneg hquot] at hfq
  have hg := centroid_gap (y := 38 + d / 2) (g := d + 25) hA (by linarith) hb hab hab1
  have eN : a * A * (38 + d / 2) + b * A * (38 + d / 2 + d + 25)
      = a * A * (38 + d / 2) + b * A * (38 + d / 2 + (d + 25)) := by ring
  rw [eN] at num hN
  generalize a * A * (38 + d / 2) + b * A * (38 + d / 2 + (d + 25)) = N at num hN hg
  generalize a * A + b * A = D at den hD hg
  have hC : 0 ≤ N / D := div_nonneg hN hD.le
  have hC2 : N / D ≤ 157 / 2 := by linarith [hg.2]
  have hfac := unitRoundoff_factors
  have hu : (0 : ℚ) < unitRoundoff := by norm_num [unitRoundoff]
  have lo : N / D * ((1 - unitRoundoff) ^ 7 / (1 + unitRoundoff) ^ 2) ≤ n / m := by
    rw [div_mul_div_comm]
    exact div_le_div₀ hnum num.1 hden den.2
  have hi : n / m ≤ N / D * ((1 + unitRoundoff) ^ 7 / (1 - unitRoundoff) ^ 2) := by
    rw [div_mul_div_comm]
    exact div_le_div₀ (mul_nonneg hN (pow_nonneg (by linarith) 7)) num.2
      (mul_pos hD (pow_pos hq.1 2)) den.1
  have h2 : 11 * unitRoundoff * (N / D) ≤ 11 * unitRoundoff * (157 / 2) :=
    mul_le_mul_of_nonneg_left hC2 (by linarith)
  constructor
  · have h1 : N / D * (1 - 11 * unitRoundoff) ≤ fl (n / m) := by
      calc N / D * (1 - 11 * unitRoundoff)
          ≤ N / D * ((1 - unitRoundoff) ^ 7 / (1 + unitRoundoff) ^ 2 * (1 - unitRoundoff)) :=
            mul_le_mul_of_nonneg_left hfac.1 hC
        _ = N / D * ((1 - unitRoundoff) ^ 7 / (1 + unitRoundoff) ^ 2) * (1 - unitRoundoff) := by
            ring
        _ ≤ n / m * (1 - unitRoundoff) := mul_le_mul_of_nonneg_right lo hq.1.le
        _ ≤ fl (n / m) := by linarith [hfq.1]
    linarith [hg.1]
  · have h1 : fl (n / m) ≤ N / D * (1 + 11 * unitRoundoff) := by
      calc fl (n / m) ≤ n / m * (1 + unitRoundoff) := by linarith [hfq.2]
        _ ≤ N / D * ((1 + unitRoundoff) ^ 7 / (1 - unitRoundoff) ^ 2) * (1 + unitRoundoff) :=
            mul_le_mul_of_nonneg_right hi (by linarith)
        _ = N / D * ((1 + unitRoundoff) ^ 7 / (1 - unitRoundoff) ^ 2 * (1 + unitRoundoff)) := by
            ring
        _ ≤ N / D * (1 + 11 * unitRoundoff) := mul_le_mul_of_nonneg_left hfac.2 hC
    linarith [hg.2]

/-- The rounded one-row depth is within `1/2` of `height - 30 - 8 - d/2` for
heights up to `10^15`. -/
theorem singleRowDepthRounded_error {fl : ℚ → ℚ} (hfl : RoundsLikeDouble fl) {height d : ℚ}
    (hd1 : 14 ≤ d) (hd2 : d ≤ 28) (hH : |height| ≤ 10 ^ 15) :
    |singleRowDepthRounded fl height d - (height - 30 - 8 - d / 2)| ≤ 1 / 2 := by
  unfold singleRowDepthRounded
  have e30 : (CONCRETE_COVER : ℚ) = 30 := by norm_num [CONCRETE_COVER]
  have e8 : (8.0 : ℚ) = 8 := by norm_num
  have e2 : (d / 2.0 : ℚ) = d / 2 := by norm_num
  rw [e30, e8, e2]
  have hu : unitRoundoff * (10 ^ 15 + 100) ≤ 1 / 8 := by norm_num [unitRoundoff]
  have hu0 : (0 : ℚ) ≤ unitRoundoff := by norm_num [unitRoundoff]
  obtain ⟨H1, H2⟩ := abs_le.mp hH
  have step : ∀ x : ℚ, |x| ≤ 10 ^ 15 + 100 → |fl x - x| ≤ 1 / 8 := fun x hx =>
    le_trans (hfl x) (le_trans (mul_le_mul_of_nonneg_left hx hu0) hu)
  have a1 := abs_le.mp (step (height - 30) (abs_le.mpr ⟨by linarith, by linarith⟩))
  have a2 := abs_le.mp (step (fl (height - 30) - 8) (abs_le.mpr ⟨by linarith, by linarith⟩))
  have a3 := abs_le.mp (step (d / 2) (abs_le.mpr ⟨by linarith, by linarith⟩))
  have a4 := abs_le.mp (step (fl (fl (height - 30) - 8) - fl (d / 2))
    (abs_le.mpr ⟨by linarith, by linarith⟩))
  exact abs_le.mpr ⟨by linarith, by linarith⟩

/-- In exact arithmetic `twoRowDepthRounded` is the centroid formula. -/
theorem twoRowDepthRounded_id (height d : ℚ) (a b : ℤ) :
    twoRowDepthRounded id height d (areaPerBarRounded id d) a b
      = height - (((a : ℚ) * (M_PI * (d / 2) ^ 2) * (30 + 8 + d / 2)
            + (b : ℚ) * (M_PI * (d / 2) ^ 2) * (30 + 8 + d / 2 + d + 25))
          / ((a : ℚ) * (M_PI * (d / 2) ^ 2) + (b : ℚ) * (M_PI * (d / 2) ^ 2))) := by
  simp only [twoRowDepthRounded, areaPerBarRounded, id, CONCRETE_COVER]
  norm_num

/-- The `h0` of a two-row candidate of the flexural stage is `twoRowDepthRounded`
in exact arithmetic, at the rows `ceil(n/2)` and `n - ceil(n/2)` of a bar count
`n >= 2`. -/
theorem flexuralStage_two_row_depth (s : RebarCalc) (d : ℚ) (t : RebarDesign)
    (p : BridgeParams) (h : s.flexuralStage d = some (t, p)) (hr : t.rebarRows = 2) :
    ∃ n : ℤ, 2 ≤ n ∧ t.rebarCountRow1 = ⌈(n : ℚ) / 2⌉
      ∧ t.rebarCountRow2 = n - ⌈(n : ℚ) / 2⌉
      ∧ p.h0 = twoRowDepthRounded id s.params.height d (areaPerBarRounded id d)
          ⌈(n : ℚ) / 2⌉ (n - ⌈(n : ℚ) / 2⌉) := by
  obtain ⟨-, -, ha, -⟩ := flexuralStage_spec h
  have hn := totalBarsFor_ge_two s { s.params with h0 := s.params.height - 30 - 8 - d / 2 } d
  rcases arrangeRows_spec ha with ⟨-, h2, -⟩ | ⟨-, -, h3, h4, -, -, h7⟩
  · rw [h2] at hr; exact absurd hr (by norm_num)
  · exact ⟨_, hn, h3, h4, by rw [twoRowDepthRounded_id]; exact h7⟩

/-- C24 in double arithmetic, evaluated: for the 5 m girder of 450 mm by 180 mm
diameter 14 is a two-row candidate of seven and seven bars; the source lines
that recompute `h0`, with every result rounded to the nearest `double`, give
`8127589952520191 / 2^46 = 115.49999999999998579...`, which is below
`h1 - (d + 25)/2 = 135 - 19.5 = 115.5`, the value of exact arithmetic. -/
theorem C24_counterexample :
    (RebarCalc.loadAnalysis {} requestSlab).flexuralStage 14 = some (layoutSlab, paramsSlab)
    ∧ layoutSlab.rebarRows = 2
    ∧ twoRowDepthRounded roundDouble paramsSlab.height 14 (areaPerBarRounded roundDouble 14)
        layoutSlab.rebarCountRow1 layoutSlab.rebarCountRow2
      = 8127589952520191 / 70368744177664
    ∧ ¬ ((paramsSlab.height - 30 - 8 - 14 / 2) - (14 + 25) / 2
        ≤ twoRowDepthRounded roundDouble paramsSlab.height 14 (areaPerBarRounded roundDouble 14)
            layoutSlab.rebarCountRow1 layoutSlab.rebarCountRow2) := by
  refine ⟨?_, ?_, ?_, ?_⟩ <;> decide!

/-- C24, amended.  Let a two-row layout of a standard diameter `d` hold
`totalBars >= 2` bars, `ceil(totalBars/2)` in the first row and the rest in the
second, let `|height| <= 10^15`, and let `h1 = height - 30 - 8 - d/2`.  For
every arithmetic `fl` that returns each result with a relative error of at most
`2^-53`, as `double` arithmetic does, the recomputed depth
`h0 = height - (As1*y1 + As2*y2)/(As1 + As2)` satisfies
`h1 - (d + 25)/2 - (|height| + 1000) * 2^-53 <= h0 < h1`, and `h0` is also below
the one-row depth as the code computed it.  In exact arithmetic the bound
`h1 - (d + 25)/2 <= h0` holds without the tolerance. -/
theorem C24_two_row_depth_rounded (fl : ℚ → ℚ) (height d : ℚ) (totalBars : ℤ)
    (hfl : RoundsLikeDouble fl) (hd : d ∈ standardDiameters) (hn : 2 ≤ totalBars)
    (hH : |height| ≤ 10 ^ 15) :
    (height - 30 - 8 - d / 2) - (d + 25) / 2 - (|height| + 1000) * unitRoundoff
        ≤ twoRowDepthRounded fl height d (areaPerBarRounded fl d)
            ⌈(totalBars : ℚ) / 2⌉ (totalBars - ⌈(totalBars : ℚ) / 2⌉)
    ∧ twoRowDepthRounded fl height d (areaPerBarRounded fl d)
          ⌈(totalBars : ℚ) / 2⌉ (totalBars - ⌈(totalBars : ℚ) / 2⌉)
        < height - 30 - 8 - d / 2
    ∧ twoRowDepthRounded fl height d (areaPerBarRounded fl d)
          ⌈(totalBars : ℚ) / 2⌉ (totalBars - ⌈(totalBars : ℚ) / 2⌉)
        < singleRowDepthRounded fl height d
    ∧ (height - 30 - 8 - d / 2) - (d + 25) / 2
        ≤ twoRowDepthRounded id height d (areaPerBarRounded id d)
            ⌈(totalBars : ℚ) / 2⌉ (totalBars - ⌈(totalBars : ℚ) / 2⌉) := by
  have hd14 := standardDiameters_ge hd
  have hd28 : d ≤ 28 := by
    simp [standardDiameters] at hd
    rcases hd with h | h | h | h | h | h | h <;> rw [h] <;> norm_num
  obtain ⟨hb, hab, hab1⟩ := two_row_split totalBars hn
  have exact_part : (height - 30 - 8 - d / 2) - (d + 25) / 2
      ≤ twoRowDepthRounded id height d (areaPerBarRounded id d)
          ⌈(totalBars : ℚ) / 2⌉ (totalBars - ⌈(totalBars : ℚ) / 2⌉) := by
    have hA : (0 : ℚ) < M_PI * (d / 2) ^ 2 := by
      have : (0 : ℚ) < M_PI := by norm_num [M_PI]
      have : (0 : ℚ) < d := by linarith
      positivity
    have hg := centroid_gap (y := 30 + 8 + d / 2) (g := d + 25) hA (by linarith) hb hab hab1
    rw [twoRowDepthRounded_id]
    have hy : (30 : ℚ) + 8 + d / 2 + d + 25 = 30 + 8 + d / 2 + (d + 25) := by ring
    rw [hy]
    linarith [hg.2]
  have hA := areaPerBarRounded_pos hfl (d := d) (by linarith)
  have hc := centroid_rounded hfl hd14 hd28 hA hb hab hab1
  have hs := abs_le.mp (singleRowDepthRounded_error hfl hd14 hd28 hH)
  refine ⟨?_, ?_, ?_, exact_part⟩ <;> unfold twoRowDepthRounded <;> simp only []
  all_goals
    generalize fl (fl (fl (fl ((⌈(totalBars : ℚ) / 2⌉ : ℤ) * areaPerBarRounded fl d)
          * fl (fl (CONCRETE_COVER + 8.0) + fl (d / 2.0)))
        + fl (fl (((totalBars - ⌈(totalBars : ℚ) / 2⌉ : ℤ) : ℚ) * areaPerBarRounded fl d)
          * fl (fl (fl (fl (CONCRETE_COVER + 8.0) + fl (d / 2.0)) + d) + 25.0)))
        / fl (fl ((⌈(totalBars : ℚ) / 2⌉ : ℤ) * areaPerBarRounded fl d)
          + fl (((totalBars - ⌈(totalBars : ℚ) / 2⌉ : ℤ) : ℚ) * areaPerBarRounded fl d))) = c
      at hc ⊢
    have hu0 : (0 : ℚ) ≤ unitRoundoff := by norm_num [unitRoundoff]
    have hu1 : 900 * unitRoundoff ≤ 1 / 2 := by norm_num [unitRoundoff]
    have hu2 : unitRoundoff * 10 ^ 15 ≤ 1 / 8 := by norm_num [unitRoundoff]
    have hH0 := abs_nonneg height
    have hcabs : |height - c| ≤ |height| + 79 :=
      abs_le.mpr ⟨by linarith [neg_abs_le height, hc.2], by linarith [le_abs_self height, hc.1]⟩
    have hf := abs_le.mp (le_trans (hfl (height - c)) (mul_le_mul_of_nonneg_left hcabs hu0))
    have huH : unitRoundoff * |height| ≤ 1 / 8 :=
      le_trans (mul_le_mul_of_nonneg_left hH hu0) hu2
    linarith [hf.1, hf.2, hc.1, hc.2, hs.1]

/-- Witness of C24: the arithmetic of `double` at the 5 m girder of 450 mm by
180 mm, diameter 14, fourteen bars. -/
theorem C24_two_row_depth_rounded_witness :
    RoundsLikeDouble roundDouble
    ∧ (14 : ℚ) ∈ standardDiameters
    ∧ (2 : ℤ) ≤ 14
    ∧ |(180 : ℚ)| ≤ 10 ^ 15
    ∧ ((180 : ℚ) - 30 - 8 - 14 / 2) - (14 + 25) / 2 - (|(180 : ℚ)| + 1000) * unitRoundoff
        ≤ twoRowDepthRounded roundDouble 180 14 (areaPerBarRounded roundDouble 14)
            ⌈((14 : ℤ) : ℚ) / 2⌉ (14 - ⌈((14 : ℤ) : ℚ) / 2⌉)
    ∧ twoRowDepthRounded roundDouble 180 14 (areaPerBarRounded roundDouble 14)
          ⌈((14 : ℤ) : ℚ) / 2⌉ (14 - ⌈((14 : ℤ) : ℚ) / 2⌉)
        < (180 : ℚ) - 30 - 8 - 14 / 2
    ∧ twoRowDepthRounded roundDouble 180 14 (areaPerBarRounded roundDouble 14)
          ⌈((14 : ℤ) : ℚ) / 2⌉ (14 - ⌈((14 : ℤ) : ℚ) / 2⌉)
        < singleRowDepthRounded roundDouble 180 14
    ∧ ((180 : ℚ) - 30 - 8 - 14 / 2) - (14 + 25) / 2
        ≤ twoRowDepthRounded id 180 14 (areaPerBarRounded id 14)
            ⌈((14 : ℤ) : ℚ) / 2⌉ (14 - ⌈((14 : ℤ) : ℚ) / 2⌉) :=
  ⟨roundDouble_error, by decide!, by decide, by decide!,
    C24_two_row_depth_rounded roundDouble 180 14 14 roundDouble_error (by decide!) (by decide)
      (by decide!)⟩

/-! ## C23: the shear that a plan resists -/

